import Mathlib

/-!
Shallow embedding of the sales-analytics platform's data-cleaning and
statistical-analysis core (src/data_cleaner.py and src/analyzer.py).

Tables are modelled as ordered column names, per-column storage dtypes and a
list of rows; cell values are exact rationals for numeric storage, strings
for object storage, integers for temporal storage, plus an explicit missing
marker (pandas NaN/NaT/None).  External library computations that the
repository merely calls (scipy skew/kurtosis/shapiro/anderson, the pandas
datetime parser, pandas Pearson correlation) are threaded through as
function parameters; everything the repository itself decides (thresholds,
branch order, fences, imputation choice, narrowing bounds) is translated
directly.
-/

attribute [local semireducible] Rat.add Rat.mul Rat.inv Rat.sub

namespace SalesAnalytics

/-- One stored cell: a numeric value, a string, a temporal value, or missing. -/
inductive Cell
  | num (q : ℚ)
  | str (s : String)
  | time (t : ℤ)
  | missing
deriving DecidableEq

/-- Pandas storage dtypes that occur in the pipeline. -/
inductive Dtype
  | int8
  | int16
  | int32
  | int64
  | float32
  | float64
  | obj
  | cat
  | datetime64
  | boolDt
deriving DecidableEq

/-- A table: ordered column names, per-column dtypes, and rows of cells. -/
structure DataFrame where
  names : List String
  dtypes : List Dtype
  rows : List (List Cell)
deriving DecidableEq

/-- Well-formedness: one dtype per column, every row as wide as the header. -/
def Wf (df : DataFrame) : Prop :=
  df.dtypes.length = df.names.length ∧ ∀ r ∈ df.rows, r.length = df.names.length

instance (df : DataFrame) : Decidable (Wf df) := by
  unfold Wf; infer_instance

def isMissing : Cell → Bool
  | .missing => true
  | _ => false

def asNum : Cell → Option ℚ
  | .num q => some q
  | _ => none

/-- Column j of a table, read off the rows (short rows read as missing). -/
def colVals (df : DataFrame) (j : ℕ) : List Cell :=
  df.rows.map (fun r => r.getD j .missing)

/-- The non-missing cells of a column. -/
def presentCells (cs : List Cell) : List Cell :=
  cs.filter (fun c => !isMissing c)

/-- The numeric values of a column (pandas dropna on a numeric column). -/
def nums (cs : List Cell) : List ℚ :=
  cs.filterMap asNum

/-- Count of missing cells, pandas isnull().sum(). -/
def nullCount (cs : List Cell) : ℕ :=
  (cs.filter isMissing).length

/-- Keep the elements not seen before, threading the set of seen values. -/
def dedupSeen {α : Type} [DecidableEq α] (seen : List α) : List α → List α
  | [] => []
  | x :: xs => if x ∈ seen then dedupSeen seen xs else x :: dedupSeen (x :: seen) xs

/-- Remove duplicates keeping the first occurrence (drop_duplicates). -/
def dedupKeepFirst {α : Type} [DecidableEq α] (l : List α) : List α :=
  dedupSeen [] l

/-- Number of distinct non-missing cells, pandas nunique(). -/
def nuniqueCells (cs : List Cell) : ℕ :=
  (dedupKeepFirst (presentCells cs)).length

/-- pandas is_numeric_dtype: integers, floats and booleans count as numeric. -/
def isNumericDtype : Dtype → Bool
  | .int8 | .int16 | .int32 | .int64 | .float32 | .float64 | .boolDt => true
  | _ => false

/-- numpy number dtypes, as selected by select_dtypes(include=[np.number]):
integers and floats, booleans excluded. -/
def isNpNumberDtype : Dtype → Bool
  | .int8 | .int16 | .int32 | .int64 | .float32 | .float64 => true
  | _ => false

/-- Ascending sort of rationals. -/
def sortQ (xs : List ℚ) : List ℚ :=
  xs.insertionSort (fun a b => a ≤ b)

/-- pandas Series.median over the non-missing values: midpoint of the sorted
list; none when there is no value at all (the median of an empty series is
NaN, and filling with NaN leaves the column unchanged). -/
def medianQ (xs : List ℚ) : Option ℚ :=
  if (sortQ xs).length = 0 then none
  else if (sortQ xs).length % 2 = 1 then some ((sortQ xs).getD ((sortQ xs).length / 2) 0)
  else
    some (((sortQ xs).getD ((sortQ xs).length / 2 - 1) 0 +
      (sortQ xs).getD ((sortQ xs).length / 2) 0) / 2)

/-- Occurrences of a cell value in a column. -/
def countCell (cs : List Cell) (c : Cell) : ℕ :=
  (cs.filter (fun d => decide (d = c))).length

/-- Tie-break order used to model the sorted order of pandas Series.mode. -/
def cellRank : Cell → ℕ
  | .num _ => 0
  | .str _ => 1
  | .time _ => 2
  | .missing => 3

def cellLe : Cell → Cell → Bool
  | .num a, .num b => decide (a ≤ b)
  | .str a, .str b => !decide (b < a)
  | .time a, .time b => decide (a ≤ b)
  | a, b => decide (cellRank a ≤ cellRank b)

/-- First entry of pandas Series.mode(): a most frequent non-missing value,
ties resolved by the least value in the mode order; none when the column has
no non-missing value at all. -/
def modeStep (cs : List Cell) (acc : Option Cell) (c : Cell) : Option Cell :=
  match acc with
  | none => some c
  | some b =>
      if countCell cs c > countCell cs b then some c
      else if countCell cs c = countCell cs b ∧ cellLe c b ∧ c ≠ b then some c
      else some b

def modeCell (cs : List Cell) : Option Cell :=
  (dedupKeepFirst (presentCells cs)).foldl (modeStep cs) none

/-- Replace the cell at one position of a row, other positions untouched. -/
def setAt (f : Cell → Cell) : ℕ → List Cell → List Cell
  | _, [] => []
  | 0, c :: cs => f c :: cs
  | n + 1, c :: cs => c :: setAt f n cs

/-- One iteration of the missing-value loop of handle_missing_values: if
column j has missing cells, numeric-dtyped columns are filled with the
column median, object-dtyped columns with the column mode or the sentinel
"Unknown"; other dtypes are left alone. -/
def handleCol (df : DataFrame) (j : ℕ) : DataFrame :=
  if nullCount (colVals df j) = 0 then df
  else if isNumericDtype (df.dtypes.getD j .obj) then
    match medianQ (nums (colVals df j)) with
    | some m =>
        { df with rows := df.rows.map (setAt (fun c => if isMissing c then .num m else c) j) }
    | none => df
  else if df.dtypes.getD j .obj = .obj then
    match modeCell (colVals df j) with
    | some m =>
        { df with rows := df.rows.map (setAt (fun c => if isMissing c then m else c) j) }
    | none =>
        { df with
            rows := df.rows.map (setAt (fun c => if isMissing c then Cell.str "Unknown" else c) j) }
  else df

/-- DataCleaner.handle_missing_values: per-column imputation loop. -/
def handle_missing_values (df : DataFrame) : DataFrame :=
  (List.range df.names.length).foldl handleCol df

/-- DataCleaner.remove_duplicates: drop rows equal to an earlier row. -/
def remove_duplicates (df : DataFrame) : DataFrame :=
  { df with rows := dedupKeepFirst df.rows }

/-- Number of rows flagged by pandas duplicated(): occurrences after the
first of each full row (missing cells compare equal, as in pandas). -/
def dupRowCount (rs : List (List Cell)) : ℕ :=
  rs.length - (dedupKeepFirst rs).length

/-- Smallest value of a list, none when empty (min of an empty series is NaN
and every NaN comparison is false). -/
def minQ? : List ℚ → Option ℚ
  | [] => none
  | x :: xs => some (xs.foldl min x)

def maxQ? : List ℚ → Option ℚ
  | [] => none
  | x :: xs => some (xs.foldl max x)

/-- The int64 narrowing chain of optimize_dtypes, with the strict bounds the
source checks against np.iinfo limits. -/
def narrowInt64 (cmin cmax : ℚ) : Dtype :=
  if -128 < cmin ∧ cmax < 127 then .int8
  else if -32768 < cmin ∧ cmax < 32767 then .int16
  else if -2147483648 < cmin ∧ cmax < 2147483647 then .int32
  else .int64

/-- Bytes per cell used by the memory-usage model.  Pandas
memory_usage(deep=True) counts real string payloads; the theorems below use
only the before/after bookkeeping, never exact byte counts, so fixed widths
per dtype plus a fixed index overhead suffice. -/
def dtypeBytes : Dtype → ℕ
  | .int8 => 1
  | .int16 => 2
  | .int32 => 4
  | .int64 => 8
  | .float32 => 4
  | .float64 => 8
  | .obj => 8
  | .cat => 4
  | .datetime64 => 8
  | .boolDt => 1

def memoryUsage (df : DataFrame) : ℕ :=
  128 + (df.dtypes.map (fun dt => df.rows.length * dtypeBytes dt)).sum

/-- Round to the nearest integer, ties to even (numpy/pandas rounding). -/
def roundHalfEven (q : ℚ) : ℤ :=
  let f := ⌊q⌋
  let r := q - f
  if r < 1 / 2 then f
  else if 1 / 2 < r then f + 1
  else if f % 2 = 0 then f else f + 1

def roundTo (d : ℕ) (q : ℚ) : ℚ :=
  (roundHalfEven (q * 10 ^ d) : ℚ) / 10 ^ d

def round2 : ℚ → ℚ := roundTo 2
def round3 : ℚ → ℚ := roundTo 3

structure OptReport where
  memory_before : ℕ
  memory_after : ℕ
  memory_saved : ℤ
  saved_percentage : ℚ
deriving DecidableEq

/-- Per-column dtype decision of optimize_dtypes.  Returns none for the
ZeroDivisionError the source would raise computing num_unique / num_total on
an object column of a zero-row table. -/
def optimizeCol (nrows : ℕ) (dt : Dtype) (cs : List Cell) : Option Dtype :=
  if dt = .int64 then
    match minQ? (nums cs), maxQ? (nums cs) with
    | some cmin, some cmax => some (narrowInt64 cmin cmax)
    | _, _ => some .int64
  else if dt = .float64 then some .float32
  else if dt = .obj then
    if nrows = 0 then none
    else if (nuniqueCells cs : ℚ) / nrows < 1 / 2 then some .cat
    else some .obj
  else some dt

/-- Traverse the columns left to right, failing as soon as one column's
optimization faults. -/
def optColsAux (df : DataFrame) : List ℕ → Option (List Dtype)
  | [] => some []
  | j :: t =>
    match optimizeCol df.rows.length (df.dtypes.getD j .obj) (colVals df j),
        optColsAux df t with
    | some d, some ds => some (d :: ds)
    | _, _ => none

/-- DataCleaner.optimize_dtypes: narrow int64 columns against the strict
np.iinfo bounds, float64 to float32 (the single-precision value rounding is
outside the rational value model; only the storage tag changes here), and
object columns with distinct ratio below one half to categorical storage.
Cell values and rows are untouched. -/
def optimize_dtypes (df : DataFrame) : Option (DataFrame × OptReport) :=
  match optColsAux df (List.range df.names.length) with
  | none => none
  | some dts =>
      some ({ df with dtypes := dts },
        { memory_before := memoryUsage df
          memory_after := memoryUsage { df with dtypes := dts }
          memory_saved := (memoryUsage df : ℤ) - memoryUsage { df with dtypes := dts }
          saved_percentage :=
            round2 ((((memoryUsage df : ℤ) - memoryUsage { df with dtypes := dts } : ℤ) : ℚ) /
              memoryUsage df * 100) })

/-- The four semantic categories of the Column Type Classifier. -/
inductive ColCategory
  | numeric
  | categorical
  | datetime
  | text
deriving DecidableEq

/-- Whether pd.to_datetime with errors raised accepts a single cell: missing
cells coerce to NaT, numeric cells to epoch offsets; only strings can fail,
through the external parser passed in as a parameter. -/
def cellParsesDt (parse : String → Bool) : Cell → Bool
  | .missing => true
  | .str s => parse s
  | .num _ => true
  | .time _ => true

/-- Per-column decision of detect_column_types, in the source's branch
order: a strict full-column datetime parse for object columns first, then
numeric dtypes, then the distinct-ratio/distinct-count categorical rule for
the remaining object columns, everything else unclassified.  Returns none
for the ZeroDivisionError of nunique / len(df) on a zero-row table. -/
def classifyCol (parse : String → Bool) (nrows : ℕ) (dt : Dtype) (cs : List Cell) :
    Option (Option ColCategory) :=
  if dt = .obj ∧ cs.all (cellParsesDt parse) then some (some .datetime)
  else if isNumericDtype dt then some (some .numeric)
  else if dt = .obj then
    if nrows = 0 then none
    else if (nuniqueCells cs : ℚ) / nrows < 1 / 20 ∨ nuniqueCells cs < 20 then
      some (some .categorical)
    else some (some .text)
  else some none

structure ColTypes where
  numeric : List String
  categorical : List String
  datetime : List String
  text : List String
deriving DecidableEq

/-- Append a column name to the list of its assigned category. -/
def addName (r : ColTypes) (c : ColCategory) (nm : String) : ColTypes :=
  match c with
  | .numeric => { r with numeric := r.numeric ++ [nm] }
  | .categorical => { r with categorical := r.categorical ++ [nm] }
  | .datetime => { r with datetime := r.datetime ++ [nm] }
  | .text => { r with text := r.text ++ [nm] }

/-- One iteration of the classification loop: classify the column at the
indexed name and append the name to the matching list. -/
def detStep (parse : String → Bool) (df : DataFrame) (acc : Option ColTypes)
    (p : ℕ × String) : Option ColTypes :=
  match acc with
  | none => none
  | some r =>
    match classifyCol parse df.rows.length (df.dtypes.getD p.1 .obj) (colVals df p.1) with
    | none => none
    | some none => some r
    | some (some c) => some (addName r c p.2)

/-- DataCleaner.detect_column_types: loop over the columns in order,
appending each name to the list its classification picks. -/
def detect_column_types (parse : String → Bool) (df : DataFrame) : Option ColTypes :=
  df.names.enum.foldl (detStep parse df) (some ⟨[], [], [], []⟩)

structure QualityReport where
  total_rows : ℕ
  total_columns : ℕ
  missing_values : List (String × ℕ × ℚ)
  duplicates : ℕ
  memory_usage : ℕ
deriving DecidableEq

/-- DataCleaner.analyze_data_quality. -/
def analyze_data_quality (df : DataFrame) : QualityReport :=
  { total_rows := df.rows.length
    total_columns := df.names.length
    missing_values :=
      df.names.enum.filterMap (fun p =>
        let cnt := nullCount (colVals df p.1)
        if cnt > 0 then
          some (p.2, cnt, round2 ((cnt : ℚ) / df.rows.length * 100))
        else none)
    duplicates := dupRowCount df.rows
    memory_usage := memoryUsage df }

structure CleaningReport where
  quality : QualityReport
  duplicates_removed : ℕ
  optimization : OptReport
  column_types : ColTypes
  final_shape : ℕ × ℕ
deriving DecidableEq

/-- DataCleaner.auto_clean: quality profile, imputation, dedup count and
removal, dtype optimization, re-classification, report assembly. -/
def auto_clean (parse : String → Bool) (df : DataFrame) :
    Option (DataFrame × CleaningReport) :=
  match optimize_dtypes (remove_duplicates (handle_missing_values df)) with
  | none => none
  | some (dfc3, optimization) =>
    match detect_column_types parse dfc3 with
    | none => none
    | some column_types =>
        some (dfc3,
          { quality := analyze_data_quality df
            duplicates_removed :=
              (handle_missing_values df).rows.length -
                (dedupKeepFirst (handle_missing_values df).rows).length
            optimization := optimization
            column_types := column_types
            final_shape := (dfc3.rows.length, dfc3.names.length) })

/-- Extended floating-point results: a finite rational, a signed infinity,
or NaN.  Captures the IEEE outcomes the analyzer's divisions can produce. -/
inductive ExtFloat
  | fin (q : ℚ)
  | posInf
  | negInf
  | nan
deriving DecidableEq

namespace ExtFloat

/-- IEEE-style division (zero treated as positive zero, as produced by the
exact pandas mean). -/
def div : ExtFloat → ExtFloat → ExtFloat
  | fin a, fin b =>
      if b ≠ 0 then fin (a / b)
      else if 0 < a then posInf
      else if a < 0 then negInf
      else nan
  | fin _, posInf => fin 0
  | fin _, negInf => fin 0
  | posInf, fin b => if 0 ≤ b then posInf else negInf
  | negInf, fin b => if 0 ≤ b then negInf else posInf
  | _, _ => nan

/-- IEEE-style multiplication, enough for scaling by a constant. -/
def mul : ExtFloat → ExtFloat → ExtFloat
  | fin a, fin b => fin (a * b)
  | fin a, posInf => if 0 < a then posInf else if a < 0 then negInf else nan
  | fin a, negInf => if 0 < a then negInf else if a < 0 then posInf else nan
  | posInf, fin b => if 0 < b then posInf else if b < 0 then negInf else nan
  | negInf, fin b => if 0 < b then negInf else if b < 0 then posInf else nan
  | posInf, posInf => posInf
  | negInf, negInf => posInf
  | posInf, negInf => negInf
  | negInf, posInf => negInf
  | _, _ => nan

/-- Rounding to two decimals leaves infinities and NaN alone. -/
def round2E : ExtFloat → ExtFloat
  | fin q => fin (round2 q)
  | e => e

end ExtFloat

/-- pandas Series.mean over the non-missing values; NaN when empty. -/
def meanE (xs : List ℚ) : ExtFloat :=
  if xs.length = 0 then .nan else .fin (xs.sum / xs.length)

/-- Sample variance with one delta degree of freedom (pandas std default). -/
def sampleVar (xs : List ℚ) : ℚ :=
  let m := xs.sum / xs.length
  (xs.map (fun x => (x - m) ^ 2)).sum / ((xs.length : ℚ) - 1)

/-- Largest natural whose square does not exceed the argument. -/
def natSqrtLin (n : ℕ) : ℕ :=
  ((List.range (n + 1)).filter (fun k => k * k ≤ n)).foldr max 0

/-- Rational square-root model: exact on rational squares, and in general a
nonnegative value that is positive exactly on positive input, which is all
the sign analysis of the coefficient of variation uses. -/
def ratSqrt (q : ℚ) : ℚ :=
  mkRat (natSqrtLin q.num.toNat) (natSqrtLin q.den)

/-- pandas Series.std: NaN below two samples, else the square root of the
sample variance.  The float square root is modelled by ratSqrt; the
theorems below use only its sign. -/
def stdE (xs : List ℚ) : ExtFloat :=
  if xs.length < 2 then .nan else .fin (ratSqrt (sampleVar xs))

/-- The coefficient-of-variation expression of descriptive_statistics:
(std / mean * 100).round(2). -/
def cvE (xs : List ℚ) : ExtFloat :=
  ExtFloat.round2E (ExtFloat.mul (ExtFloat.div (stdE xs) (meanE xs)) (.fin 100))

/-- Coefficient of variation per np.number column of a table, as the cv
column of descriptive_statistics. -/
def descriptive_cv (df : DataFrame) : List (String × ExtFloat) :=
  df.names.enum.filterMap (fun p =>
    if isNpNumberDtype (df.dtypes.getD p.1 .obj) then
      some (p.2, cvE (nums (colVals df p.1)))
    else none)

/-- Linear interpolation of a sorted list at a fractional position. -/
def interpAt (s : List ℚ) (pos : ℚ) : ℚ :=
  s.getD (⌊pos⌋).toNat 0 +
    (pos - (⌊pos⌋ : ℚ)) *
      (s.getD ((⌊pos⌋).toNat + 1) (s.getD (⌊pos⌋).toNat 0) - s.getD (⌊pos⌋).toNat 0)

/-- pandas quantile with the default linear interpolation, over the sorted
non-missing values. -/
def quantileQ (xs : List ℚ) (p : ℚ) : ℚ :=
  if (sortQ xs).length = 0 then 0
  else interpAt (sortQ xs) (p * (((sortQ xs).length : ℚ) - 1))

/-- External statistical library calls the analyzer makes, threaded in as
parameters: scipy skew, kurtosis and normality tests (none models a raised
exception / an unavailable p-value), and the pandas Pearson correlation of
two columns (none models a NaN correlation). -/
structure PStats where
  skew : List ℚ → Option ℚ
  kurt : List ℚ → Option ℚ
  shapiro : List ℚ → Option ℚ
  anderson : List ℚ → Option (ℚ × ℚ)
  corr : List Cell → List Cell → Option ℚ

structure DistSummary where
  skewness : ℚ
  kurtosis : ℚ
  is_normal : Bool
  outliers_count : ℕ
  outliers_percentage : ℚ
  q1 : ℚ
  q3 : ℚ
  iqr : ℚ
deriving DecidableEq

/-- DataAnalyzer.distribution_analysis: empty result for an absent or
non-numeric column and for fewer than 3 non-missing values; skew/kurtosis
with the joint zero fallback on failure; the size-switched normality
verdict; and the IQR outlier fences with strict comparisons. -/
def distribution_analysis (P : PStats) (df : DataFrame) (col : String) :
    Option DistSummary :=
  match df.names.findIdx? (fun n => n == col) with
  | none => none
  | some j =>
    if isNumericDtype (df.dtypes.getD j .obj) = false then none
    else
      let data := nums (colVals df j)
      if data.length < 3 then none
      else
        let sk : ℚ × ℚ :=
          match P.skew data, P.kurt data with
          | some s, some k => (s, k)
          | _, _ => (0, 0)
        let is_normal : Bool :=
          if data.length < 5000 then
            match P.shapiro data with
            | some p => decide (p > 1 / 20)
            | none => false
          else
            match P.anderson data with
            | some sc => decide (sc.1 < sc.2)
            | none => false
        let q1 := quantileQ data (1 / 4)
        let q3 := quantileQ data (3 / 4)
        let iqr := q3 - q1
        let lower := q1 - 3 / 2 * iqr
        let upper := q3 + 3 / 2 * iqr
        let outliers := data.filter (fun v => decide (v < lower ∨ v > upper))
        some
          { skewness := round3 sk.1
            kurtosis := round3 sk.2
            is_normal := is_normal
            outliers_count := outliers.length
            outliers_percentage := round2 ((outliers.length : ℚ) / data.length * 100)
            q1 := q1
            q3 := q3
            iqr := iqr }

structure CatSummary where
  unique_count : ℕ
  most_common : Option Cell
  most_common_count : ℕ
  most_common_pct : ℚ
deriving DecidableEq

/-- A most frequent non-missing value of a column with its count; the first
entry of pandas value_counts. -/
def mostCommonCell (cs : List Cell) : Option (Cell × ℕ) :=
  (dedupKeepFirst (presentCells cs)).foldl
    (fun acc c =>
      match acc with
      | none => some (c, countCell cs c)
      | some b => if countCell cs c > b.2 then some (c, countCell cs c) else some b)
    none

/-- DataAnalyzer.categorical_analysis: empty result only for an absent
column; the dominant share divides by the full row count. -/
def categorical_analysis (df : DataFrame) (col : String) : Option CatSummary :=
  match df.names.findIdx? (fun n => n == col) with
  | none => none
  | some j =>
    let cs := colVals df j
    match mostCommonCell cs with
    | none =>
        some { unique_count := nuniqueCells cs
               most_common := none
               most_common_count := 0
               most_common_pct := 0 }
    | some b =>
        some { unique_count := nuniqueCells cs
               most_common := some b.1
               most_common_count := b.2
               most_common_pct := round2 ((b.2 : ℚ) / df.rows.length * 100) }

/-- Indices of the np.number columns, in table column order. -/
def numericColIdx (df : DataFrame) : List ℕ :=
  (List.range df.names.length).filter (fun j => isNpNumberDtype (df.dtypes.getD j .obj))

/-- All ordered pairs with the first component strictly earlier, in the
i-outer j-inner discovery order of the correlation double loop. -/
def pairsAfter {α : Type} : List α → List (α × α)
  | [] => []
  | x :: xs => xs.map (fun y => (x, y)) ++ pairsAfter xs

/-- The strong-correlation list of DataAnalyzer.correlation_analysis: empty
below two np.number columns, else every i-before-j pair whose correlation
exceeds 0.7 in absolute value, coefficient rounded to 3 decimals. -/
def strong_correlations (P : PStats) (df : DataFrame) : List (String × String × ℚ) :=
  let idx := numericColIdx df
  if idx.length < 2 then []
  else
    (pairsAfter idx).filterMap (fun p =>
      match P.corr (colVals df p.1) (colVals df p.2) with
      | some v =>
          if |v| > 7 / 10 then
            some (df.names.getD p.1 "", df.names.getD p.2 "", round3 v)
          else none
      | none => none)

/-- Structured insight records; the source renders each as a localized
string, which adds no decision content. -/
inductive Insight
  | outlier (col : String) (pct : ℚ)
  | skewed (col : String) (right : Bool) (sk : ℚ)
  | normalDist (col : String)
  | corrNote (v1 v2 : String) (c : ℚ)
  | dominant (col : String) (v : Cell) (pct : ℚ)
deriving DecidableEq

/-- DataAnalyzer.generate_insights: the three append loops of the source,
accumulating into one list. -/
def generate_insights (P : PStats) (df : DataFrame) (ct : ColTypes) : List Insight :=
  let ins : List Insight := []
  let ins := (ct.numeric.take 5).foldl
    (fun acc col =>
      match distribution_analysis P df col with
      | none => acc
      | some d =>
        let acc := if d.outliers_percentage > 5 then acc ++ [.outlier col d.outliers_percentage] else acc
        let acc := if |d.skewness| > 1 then acc ++ [.skewed col (decide (d.skewness > 0)) d.skewness] else acc
        if d.is_normal then acc ++ [.normalDist col] else acc)
    ins
  let ins := ((strong_correlations P df).take 3).foldl
    (fun acc t => acc ++ [.corrNote t.1 t.2.1 t.2.2]) ins
  (ct.categorical.take 3).foldl
    (fun acc col =>
      match categorical_analysis df col with
      | none => acc
      | some c =>
        if c.most_common_pct > 50 then
          acc ++ [.dominant col (c.most_common.getD (.str "")) c.most_common_pct]
        else acc)
    ins

/-- Modelled from the spec's wording of the insight order: per numeric
column (first five) the three independent checks in outlier, skew,
normality order; then the first three strong-correlation pairs; then the
first three categorical columns with a dominant share above one half. -/
def insightsSpec (P : PStats) (df : DataFrame) (ct : ColTypes) : List Insight :=
  ((ct.numeric.take 5).flatMap (fun col =>
    match distribution_analysis P df col with
    | none => []
    | some d =>
      (if d.outliers_percentage > 5 then [Insight.outlier col d.outliers_percentage] else []) ++
      (if |d.skewness| > 1 then [Insight.skewed col (decide (d.skewness > 0)) d.skewness] else []) ++
      (if d.is_normal then [Insight.normalDist col] else []))) ++
  (((strong_correlations P df).take 3).map (fun t => Insight.corrNote t.1 t.2.1 t.2.2)) ++
  ((ct.categorical.take 3).flatMap (fun col =>
    match categorical_analysis df col with
    | none => []
    | some c =>
      if c.most_common_pct > 50 then
        [Insight.dominant col (c.most_common.getD (.str "")) c.most_common_pct]
      else []))

/-! Concrete instantiations and projections used by the statements below. -/

/-- A datetime parser rejecting every string (the strictest collaborator). -/
def noParse : String → Bool := fun _ => false

/-- A concrete bundle of external statistics stubs for witnesses. -/
def statsStub : PStats :=
  { skew := fun _ => some 0
    kurt := fun _ => some 0
    shapiro := fun _ => some 0
    anderson := fun _ => some (0, 0)
    corr := fun _ _ => some 0 }

/-- Rows of the cleaned table, empty when the pipeline faults. -/
def cleanedRows (parse : String → Bool) (df : DataFrame) : List (List Cell) :=
  ((auto_clean parse df).map (fun p => p.1.rows)).getD []

/-- Column names of the cleaned table, empty when the pipeline faults. -/
def cleanedNames (parse : String → Bool) (df : DataFrame) : List String :=
  ((auto_clean parse df).map (fun p => p.1.names)).getD []

/-- Reported duplicates_removed, zero when the pipeline faults. -/
def reportedDupsRemoved (parse : String → Bool) (df : DataFrame) : ℕ :=
  ((auto_clean parse df).map (fun p => p.2.duplicates_removed)).getD 0

theorem cleanedRows_eq {parse : String → Bool} {df : DataFrame}
    {p : DataFrame × CleaningReport} (hp : auto_clean parse df = some p) :
    cleanedRows parse df = p.1.rows := by
  simp [cleanedRows, hp]

theorem cleanedNames_eq {parse : String → Bool} {df : DataFrame}
    {p : DataFrame × CleaningReport} (hp : auto_clean parse df = some p) :
    cleanedNames parse df = p.1.names := by
  simp [cleanedNames, hp]

theorem reportedDupsRemoved_eq {parse : String → Bool} {df : DataFrame}
    {p : DataFrame × CleaningReport} (hp : auto_clean parse df = some p) :
    reportedDupsRemoved parse df = p.2.duplicates_removed := by
  simp [reportedDupsRemoved, hp]

/-! Structural lemmas about deduplication. -/

theorem dedupSeen_sublist {α : Type} [DecidableEq α] :
    ∀ (l seen : List α), List.Sublist (dedupSeen seen l) l := by
  intro l
  induction l with
  | nil => intro seen; exact List.Sublist.refl []
  | cons x xs ih =>
    intro seen
    rw [dedupSeen]
    by_cases hx : x ∈ seen
    · rw [if_pos hx]
      exact (ih seen).cons x
    · rw [if_neg hx]
      exact (ih (x :: seen)).cons₂ x

theorem dedupKeepFirst_sublist {α : Type} [DecidableEq α] (l : List α) :
    List.Sublist (dedupKeepFirst l) l :=
  dedupSeen_sublist l []

theorem dedupKeepFirst_length_le {α : Type} [DecidableEq α] (l : List α) :
    (dedupKeepFirst l).length ≤ l.length :=
  (dedupKeepFirst_sublist l).length_le

theorem mem_of_mem_dedupKeepFirst {α : Type} [DecidableEq α] {l : List α} {x : α}
    (h : x ∈ dedupKeepFirst l) : x ∈ l :=
  (dedupKeepFirst_sublist l).subset h

/-! Lemmas about single-position row updates. -/

theorem setAt_length (f : Cell → Cell) :
    ∀ (j : ℕ) (r : List Cell), (setAt f j r).length = r.length := by
  intro j r
  induction r generalizing j with
  | nil => cases j <;> rfl
  | cons c cs ih =>
    cases j with
    | zero => simp [setAt]
    | succ n => simp [setAt, ih]

theorem setAt_getD_ne (f : Cell → Cell) :
    ∀ (a j : ℕ) (r : List Cell) (d : Cell), j ≠ a → (setAt f a r).getD j d = r.getD j d := by
  intro a j r
  induction r generalizing a j with
  | nil => intro d _; cases a <;> rfl
  | cons c cs ih =>
    intro d h
    cases a with
    | zero =>
      cases j with
      | zero => exact absurd rfl h
      | succ m => simp [setAt]
    | succ n =>
      cases j with
      | zero => simp [setAt]
      | succ m =>
        simp only [setAt, List.getD_cons_succ]
        exact ih n m d (fun hh => h (by rw [hh]))

theorem setAt_getD_self (f : Cell → Cell) :
    ∀ (j : ℕ) (r : List Cell) (d : Cell), j < r.length →
      (setAt f j r).getD j d = f (r.getD j d) := by
  intro j r
  induction r generalizing j with
  | nil => intro d h; simp at h
  | cons c cs ih =>
    intro d h
    cases j with
    | zero => simp [setAt]
    | succ n =>
      simp only [setAt, List.getD_cons_succ]
      exact ih n d (by simpa using h)

/-! Shape lemmas about the imputation loop. -/

theorem handleCol_rows_cases (df : DataFrame) (j : ℕ) :
    (handleCol df j).rows = df.rows ∨
      ∃ f, (handleCol df j).rows = df.rows.map (setAt f j) := by
  unfold handleCol
  split
  · exact Or.inl rfl
  split
  · split
    · exact Or.inr ⟨_, rfl⟩
    · exact Or.inl rfl
  split
  · split
    · exact Or.inr ⟨_, rfl⟩
    · exact Or.inr ⟨_, rfl⟩
  · exact Or.inl rfl

theorem handleCol_names (df : DataFrame) (j : ℕ) : (handleCol df j).names = df.names := by
  unfold handleCol
  repeat' split
  all_goals rfl

theorem handleCol_dtypes (df : DataFrame) (j : ℕ) : (handleCol df j).dtypes = df.dtypes := by
  unfold handleCol
  repeat' split
  all_goals rfl

theorem handleCol_rows_length (df : DataFrame) (j : ℕ) :
    (handleCol df j).rows.length = df.rows.length := by
  rcases handleCol_rows_cases df j with h | ⟨f, h⟩ <;> simp [h]

theorem colVals_handleCol_ne (df : DataFrame) (a j : ℕ) (h : j ≠ a) :
    colVals (handleCol df a) j = colVals df j := by
  rcases handleCol_rows_cases df a with hr | ⟨f, hr⟩
  · unfold colVals
    rw [hr]
  · unfold colVals
    rw [hr, List.map_map]
    exact List.map_congr_left (fun r _ => setAt_getD_ne f a j r _ h)

theorem wf_handleCol (df : DataFrame) (a : ℕ) (h : Wf df) : Wf (handleCol df a) := by
  obtain ⟨h1, h2⟩ := h
  constructor
  · rw [handleCol_dtypes, handleCol_names]
    exact h1
  · intro r hr
    rw [handleCol_names]
    rcases handleCol_rows_cases df a with hc | ⟨f, hc⟩
    · rw [hc] at hr
      exact h2 r hr
    · rw [hc] at hr
      obtain ⟨r₀, hr₀, rfl⟩ := List.mem_map.mp hr
      rw [setAt_length]
      exact h2 r₀ hr₀

theorem foldl_handleCol_names (l : List ℕ) (df : DataFrame) :
    (l.foldl handleCol df).names = df.names := by
  induction l generalizing df with
  | nil => rfl
  | cons a t ih => rw [List.foldl_cons, ih, handleCol_names]

theorem foldl_handleCol_dtypes (l : List ℕ) (df : DataFrame) :
    (l.foldl handleCol df).dtypes = df.dtypes := by
  induction l generalizing df with
  | nil => rfl
  | cons a t ih => rw [List.foldl_cons, ih, handleCol_dtypes]

theorem foldl_handleCol_rows_length (l : List ℕ) (df : DataFrame) :
    (l.foldl handleCol df).rows.length = df.rows.length := by
  induction l generalizing df with
  | nil => rfl
  | cons a t ih => rw [List.foldl_cons, ih, handleCol_rows_length]

theorem foldl_handleCol_wf (l : List ℕ) (df : DataFrame) (h : Wf df) :
    Wf (l.foldl handleCol df) := by
  induction l generalizing df with
  | nil => exact h
  | cons a t ih => rw [List.foldl_cons]; exact ih _ (wf_handleCol df a h)

theorem colVals_foldl_handleCol (l : List ℕ) (df : DataFrame) (j : ℕ) (h : j ∉ l) :
    colVals (l.foldl handleCol df) j = colVals df j := by
  induction l generalizing df with
  | nil => rfl
  | cons a t ih =>
    rw [List.foldl_cons, ih _ (fun hh => h (List.mem_cons_of_mem a hh)),
      colVals_handleCol_ne df a j (fun hh => h (hh ▸ List.mem_cons_self a t))]

theorem handle_missing_names (df : DataFrame) :
    (handle_missing_values df).names = df.names :=
  foldl_handleCol_names _ df

theorem handle_missing_rows_length (df : DataFrame) :
    (handle_missing_values df).rows.length = df.rows.length :=
  foldl_handleCol_rows_length _ df

/-! The imputation loop leaves no missing cell in the columns it covers. -/

theorem noMissing_of_nullCount_zero {cs : List Cell} (h : nullCount cs = 0) :
    ∀ c ∈ cs, c ≠ Cell.missing := by
  intro c hc he
  subst he
  have hmem : Cell.missing ∈ cs.filter isMissing := List.mem_filter.mpr ⟨hc, rfl⟩
  rw [nullCount, List.length_eq_zero] at h
  rw [h] at hmem
  exact List.not_mem_nil _ hmem

theorem fold_pick_mem {β : Type} (g : Option β → β → Option β)
    (hg : ∀ a c, g a c = a ∨ g a c = some c) :
    ∀ (L : List β) (a₀ : Option β), L.foldl g a₀ = a₀ ∨ ∃ x ∈ L, L.foldl g a₀ = some x := by
  intro L
  induction L with
  | nil => intro a₀; exact Or.inl rfl
  | cons c t ih =>
    intro a₀
    rw [List.foldl_cons]
    rcases hg a₀ c with h | h
    · rw [h]
      rcases ih a₀ with h2 | ⟨x, hx, h2⟩
      · exact Or.inl h2
      · exact Or.inr ⟨x, List.mem_cons_of_mem c hx, h2⟩
    · rw [h]
      rcases ih (some c) with h2 | ⟨x, hx, h2⟩
      · exact Or.inr ⟨c, List.mem_cons_self c t, h2⟩
      · exact Or.inr ⟨x, List.mem_cons_of_mem c hx, h2⟩

theorem modeStep_cases (cs : List Cell) (a : Option Cell) (c : Cell) :
    modeStep cs a c = a ∨ modeStep cs a c = some c := by
  cases a with
  | none => exact Or.inr rfl
  | some b =>
    simp only [modeStep]
    split_ifs with h1 h2
    · exact Or.inr rfl
    · exact Or.inr rfl
    · exact Or.inl rfl

theorem modeCell_not_missing {cs : List Cell} {m : Cell} (h : modeCell cs = some m) :
    m ≠ Cell.missing := by
  unfold modeCell at h
  rcases fold_pick_mem (modeStep cs) (modeStep_cases cs)
      (dedupKeepFirst (presentCells cs)) none with h2 | ⟨x, hx, h2⟩
  · rw [h2] at h
    exact absurd h (by simp)
  · rw [h2] at h
    have hxm : x = m := Option.some.inj h
    subst hxm
    have hp : x ∈ presentCells cs := mem_of_mem_dedupKeepFirst hx
    have hf := (List.mem_filter.mp hp).2
    intro he
    rw [he] at hf
    simp [isMissing] at hf

theorem sortQ_length (xs : List ℚ) : (sortQ xs).length = xs.length :=
  (List.perm_insertionSort _ xs).length_eq

theorem sortQ_sorted (xs : List ℚ) : (sortQ xs).Sorted (fun a b => a ≤ b) :=
  List.sorted_insertionSort _ xs

theorem medianQ_ne_none {xs : List ℚ} (h : xs ≠ []) : medianQ xs ≠ none := by
  unfold medianQ
  have hn : (sortQ xs).length ≠ 0 := by
    rw [sortQ_length]
    intro h0
    exact h (List.length_eq_zero.mp h0)
  rw [if_neg hn]
  split <;> simp

/-- Definition of a column free of missing values, read at row level. -/
def NoMissingCol (df : DataFrame) (j : ℕ) : Prop :=
  ∀ r ∈ df.rows, r.getD j Cell.missing ≠ Cell.missing

theorem handleCol_fills (df : DataFrame) (j : ℕ) (hwf : Wf df) (hj : j < df.names.length)
    (hcond : (isNumericDtype (df.dtypes.getD j .obj) = true ∧ nums (colVals df j) ≠ []) ∨
      df.dtypes.getD j .obj = .obj) :
    NoMissingCol (handleCol df j) j := by
  intro r hr
  unfold handleCol at hr
  by_cases h0 : nullCount (colVals df j) = 0
  · rw [if_pos h0] at hr
    intro he
    have hmem : r.getD j Cell.missing ∈ colVals df j := List.mem_map_of_mem _ hr
    exact noMissing_of_nullCount_zero h0 _ hmem he
  · rw [if_neg h0] at hr
    by_cases h1 : isNumericDtype (df.dtypes.getD j .obj) = true
    · rw [if_pos h1] at hr
      have hne : nums (colVals df j) ≠ [] := by
        rcases hcond with ⟨_, hne⟩ | hobj
        · exact hne
        · rw [hobj] at h1
          exact absurd h1 (by decide)
      cases hmed : medianQ (nums (colVals df j)) with
      | none => exact absurd hmed (medianQ_ne_none hne)
      | some m =>
        rw [hmed] at hr
        dsimp only at hr
        obtain ⟨r₀, hr₀, rfl⟩ := List.mem_map.mp hr
        have hlen : j < r₀.length := by rw [hwf.2 r₀ hr₀]; exact hj
        rw [setAt_getD_self _ j r₀ _ hlen]
        cases r₀.getD j Cell.missing <;> simp [isMissing]
    · rw [if_neg h1] at hr
      have hobj : df.dtypes.getD j .obj = .obj := by
        rcases hcond with ⟨hn, _⟩ | hobj
        · exact absurd hn h1
        · exact hobj
      rw [if_pos hobj] at hr
      cases hmode : modeCell (colVals df j) with
      | some m =>
        rw [hmode] at hr
        dsimp only at hr
        obtain ⟨r₀, hr₀, rfl⟩ := List.mem_map.mp hr
        have hlen : j < r₀.length := by rw [hwf.2 r₀ hr₀]; exact hj
        rw [setAt_getD_self _ j r₀ _ hlen]
        have hm := modeCell_not_missing hmode
        cases hcell : r₀.getD j Cell.missing <;> simp [isMissing, hm]
      | none =>
        rw [hmode] at hr
        dsimp only at hr
        obtain ⟨r₀, hr₀, rfl⟩ := List.mem_map.mp hr
        have hlen : j < r₀.length := by rw [hwf.2 r₀ hr₀]; exact hj
        rw [setAt_getD_self _ j r₀ _ hlen]
        cases hcell : r₀.getD j Cell.missing <;> simp [isMissing]

theorem fold_handle_fills (j : ℕ) :
    ∀ (l : List ℕ) (df : DataFrame), l.Nodup → j ∈ l → Wf df → j < df.names.length →
      ((isNumericDtype (df.dtypes.getD j .obj) = true ∧ nums (colVals df j) ≠ []) ∨
        df.dtypes.getD j .obj = .obj) →
      NoMissingCol (l.foldl handleCol df) j := by
  intro l
  induction l with
  | nil => intro df _ hj; exact absurd hj (List.not_mem_nil j)
  | cons a t ih =>
    intro df hnd hj hwf hlen hcond
    rw [List.foldl_cons]
    by_cases haj : a = j
    · subst haj
      have hfill : NoMissingCol (handleCol df a) a := handleCol_fills df a hwf hlen hcond
      have hnotin : a ∉ t := (List.nodup_cons.mp hnd).1
      intro r hr he
      have hmem : r.getD a Cell.missing ∈ colVals (t.foldl handleCol (handleCol df a)) a :=
        List.mem_map_of_mem _ hr
      rw [colVals_foldl_handleCol t (handleCol df a) a hnotin, he] at hmem
      obtain ⟨r₀, hr₀, hr₀e⟩ := List.mem_map.mp hmem
      exact hfill r₀ hr₀ hr₀e
    · have hjt : j ∈ t := by
        rcases List.mem_cons.mp hj with h | h
        · exact absurd h.symm haj
        · exact h
      apply ih (handleCol df a) (List.nodup_cons.mp hnd).2 hjt (wf_handleCol df a hwf)
      · rw [handleCol_names]
        exact hlen
      · rw [handleCol_dtypes, colVals_handleCol_ne df a j (fun hh => haj hh.symm)]
        exact hcond

theorem handle_missing_fills (df : DataFrame) (j : ℕ) (hwf : Wf df)
    (hj : j < df.names.length)
    (hcond : (isNumericDtype (df.dtypes.getD j .obj) = true ∧ nums (colVals df j) ≠ []) ∨
      df.dtypes.getD j .obj = .obj) :
    NoMissingCol (handle_missing_values df) j :=
  fold_handle_fills j (List.range df.names.length) df (List.nodup_range _)
    (List.mem_range.mpr hj) hwf hj hcond

/-! Destructuring the pipeline when it succeeds. -/

theorem optimize_dtypes_parts {df : DataFrame} {p : DataFrame × OptReport}
    (h : optimize_dtypes df = some p) : p.1.rows = df.rows ∧ p.1.names = df.names := by
  unfold optimize_dtypes at h
  split at h
  · exact absurd h (by simp)
  · obtain rfl : _ = p := Option.some.inj h
    exact ⟨rfl, rfl⟩

theorem auto_clean_spec {parse : String → Bool} {df : DataFrame}
    {p : DataFrame × CleaningReport} (h : auto_clean parse df = some p) :
    p.1.rows = dedupKeepFirst (handle_missing_values df).rows ∧
    p.1.names = df.names ∧
    p.2.duplicates_removed =
      (handle_missing_values df).rows.length -
        (dedupKeepFirst (handle_missing_values df).rows).length := by
  unfold auto_clean at h
  split at h
  · exact absurd h (by simp)
  · rename_i q dfc3 optimization heq
    split at h
    · exact absurd h (by simp)
    · obtain rfl : _ = p := Option.some.inj h
      obtain ⟨hrows, hnames⟩ := optimize_dtypes_parts heq
      refine ⟨?_, ?_, rfl⟩
      · rw [hrows]
        rfl
      · rw [hnames]
        show (remove_duplicates (handle_missing_values df)).names = df.names
        rw [remove_duplicates]
        exact handle_missing_names df

/-! Claim C1: missing values after cleaning. -/

/-- A datetime-typed input column with a missing cell: the imputation loop
only treats numeric- and object-typed columns. -/
def dfDt : DataFrame := ⟨["d"], [.datetime64], [[.time 0], [.missing]]⟩

/-- C1 counterexample: the pipeline completes on a table with a
datetime64-typed column holding a missing value, and the cleaned table
still contains that missing value, refuting the claim that no column of
the cleaned table contains a missing value. -/
theorem C1_counterexample :
    cleanedRows noParse dfDt = [[Cell.time 0], [Cell.missing]] ∧
    ∃ r ∈ cleanedRows noParse dfDt, r.getD 0 Cell.missing = Cell.missing := by decide

/-- C1 amended: after auto_clean, a column whose storage type is numeric
with at least one present value, or whose storage type is object, carries
no missing value in the cleaned table (numeric columns get the median,
object columns the mode or the "Unknown" sentinel, and the dedup and
narrowing steps never introduce a missing value); columns of other storage
types, and all-missing numeric columns, are outside this guarantee. -/
theorem C1_no_missing_amended (parse : String → Bool) (df : DataFrame) (j : ℕ)
    (hwf : Wf df) (hj : j < df.names.length) (hs : (auto_clean parse df).isSome)
    (hcond : (isNumericDtype (df.dtypes.getD j .obj) = true ∧ nums (colVals df j) ≠ []) ∨
      df.dtypes.getD j .obj = .obj) :
    ∀ r ∈ cleanedRows parse df, r.getD j Cell.missing ≠ Cell.missing := by
  obtain ⟨p, hp⟩ := Option.isSome_iff_exists.mp hs
  have hspec := auto_clean_spec hp
  intro r hr
  rw [cleanedRows_eq hp, hspec.1] at hr
  have hr1 : r ∈ (handle_missing_values df).rows := (dedupKeepFirst_sublist _).subset hr
  exact handle_missing_fills df j hwf hj hcond r hr1

/-- Concrete two-column table exercising the amended C1 statement. -/
def dfW1 : DataFrame :=
  ⟨["a", "b"], [.float64, .obj], [[.num 1, .missing], [.missing, .str "x"]]⟩

theorem C1_no_missing_amended_witness :
    Wf dfW1 ∧ (0 : ℕ) < dfW1.names.length ∧ (auto_clean noParse dfW1).isSome ∧
    ((isNumericDtype (dfW1.dtypes.getD 0 .obj) = true ∧ nums (colVals dfW1 0) ≠ []) ∨
      dfW1.dtypes.getD 0 .obj = .obj) ∧
    ∀ r ∈ cleanedRows noParse dfW1, r.getD 0 Cell.missing ≠ Cell.missing :=
  ⟨by decide, by decide, by decide, by decide,
    C1_no_missing_amended noParse dfW1 0 (by decide) (by decide) (by decide) (by decide)⟩

/-! Claim C2: row counts and the duplicate count. -/

/-- A numeric column where imputation creates a new duplicate: rows 2, 2,
missing; the missing cell is imputed to the median 2. -/
def dfDup : DataFrame := ⟨["a"], [.float64], [[.num 2], [.num 2], [.missing]]⟩

/-- C2 counterexample: on the table with column values 2, 2, missing the
input has exactly one fully-duplicate row, so the claim predicts 3 - 1 = 2
cleaned rows, but deduplication runs after imputation (which turns the
missing cell into the median 2), so the pipeline returns a single row and
reports 2 duplicates removed. -/
theorem C2_counterexample :
    (cleanedRows noParse dfDup).length = 1 ∧
    dupRowCount dfDup.rows = 1 ∧
    dfDup.rows.length - dupRowCount dfDup.rows = 2 ∧
    (cleanedRows noParse dfDup).length ≠ dfDup.rows.length - dupRowCount dfDup.rows ∧
    reportedDupsRemoved noParse dfDup = 2 := by decide

/-- C2 amended: when auto_clean succeeds, the cleaned table's rows are
exactly the first occurrences of the rows of the imputed table, so the
output row count equals the input row count minus the number of rows that
duplicate an earlier row after imputation; imputation and type narrowing
never change the row count, so deduplication is the only row-changing
step, and the reported duplicates_removed equals rows-before minus
rows-after at that step. -/
theorem C2_rowcount_amended (parse : String → Bool) (df : DataFrame)
    (hs : (auto_clean parse df).isSome) :
    cleanedRows parse df = dedupKeepFirst (handle_missing_values df).rows ∧
    (handle_missing_values df).rows.length = df.rows.length ∧
    (cleanedRows parse df).length ≤ df.rows.length ∧
    reportedDupsRemoved parse df = df.rows.length - (cleanedRows parse df).length := by
  obtain ⟨p, hp⟩ := Option.isSome_iff_exists.mp hs
  have hspec := auto_clean_spec hp
  have hlen := handle_missing_rows_length df
  constructor
  · rw [cleanedRows_eq hp]
    exact hspec.1
  constructor
  · exact hlen
  constructor
  · rw [cleanedRows_eq hp, hspec.1]
    calc (dedupKeepFirst (handle_missing_values df).rows).length
        ≤ (handle_missing_values df).rows.length := dedupKeepFirst_length_le _
      _ = df.rows.length := hlen
  · rw [reportedDupsRemoved_eq hp, cleanedRows_eq hp, hspec.2.2, hspec.1, hlen]

theorem C2_rowcount_amended_witness :
    (auto_clean noParse dfDup).isSome ∧
    (cleanedRows noParse dfDup = dedupKeepFirst (handle_missing_values dfDup).rows ∧
      (handle_missing_values dfDup).rows.length = dfDup.rows.length ∧
      (cleanedRows noParse dfDup).length ≤ dfDup.rows.length ∧
      reportedDupsRemoved noParse dfDup =
        dfDup.rows.length - (cleanedRows noParse dfDup).length) :=
  ⟨by decide, C2_rowcount_amended noParse dfDup (by decide)⟩

/-! Claim C10: the cleaned table keeps the column names in order. -/

/-- C10: whenever auto_clean returns a cleaned table, its column names are
exactly the input's column names in the same order: imputation rewrites
cells in place, deduplication drops whole rows, and type narrowing changes
only the storage dtypes. -/
theorem C10_columns_preserved (parse : String → Bool) (df : DataFrame)
    (hs : (auto_clean parse df).isSome) :
    cleanedNames parse df = df.names := by
  obtain ⟨p, hp⟩ := Option.isSome_iff_exists.mp hs
  rw [cleanedNames_eq hp]
  exact (auto_clean_spec hp).2.1

/-- Concrete three-column table exercising C10. -/
def dfW10 : DataFrame :=
  ⟨["n", "s", "t"], [.int64, .obj, .datetime64],
    [[.num 5, .str "a", .time 3], [.num 6, .missing, .time 4]]⟩

theorem C10_columns_preserved_witness :
    (auto_clean noParse dfW10).isSome ∧ cleanedNames noParse dfW10 = dfW10.names :=
  ⟨by decide, C10_columns_preserved noParse dfW10 (by decide)⟩

/-! Classifier lemmas: the fold builds exactly the per-category collections. -/

/-- Names whose column classifies to a given category, over a pair list. -/
def collectL (parse : String → Bool) (df : DataFrame) (c : ColCategory)
    (l : List (ℕ × String)) : List String :=
  l.filterMap (fun p =>
    if classifyCol parse df.rows.length (df.dtypes.getD p.1 .obj) (colVals df p.1) =
        some (some c) then some p.2
    else none)

/-- Names whose column classifies to a given category, in column order. -/
def collectCat (parse : String → Bool) (df : DataFrame) (c : ColCategory) : List String :=
  collectL parse df c df.names.enum

theorem classifyAt_ne_none (parse : String → Bool) (df : DataFrame) (j : ℕ) :
    classifyCol parse df.rows.length (df.dtypes.getD j .obj) (colVals df j) ≠ none := by
  by_cases hr : df.rows.length = 0
  · have hcv : colVals df j = [] := by
      rw [colVals, List.length_eq_zero.mp hr]
      rfl
    rw [hcv]
    unfold classifyCol
    split_ifs <;> simp_all
  · unfold classifyCol
    split_ifs <;> simp_all

theorem collectL_cons_none (parse : String → Bool) (df : DataFrame) (c : ColCategory)
    {p : ℕ × String} {t : List (ℕ × String)}
    (hc : classifyCol parse df.rows.length (df.dtypes.getD p.1 .obj) (colVals df p.1) =
      some none) :
    collectL parse df c (p :: t) = collectL parse df c t := by
  unfold collectL
  rw [List.filterMap_cons, if_neg (by rw [hc]; simp)]

theorem collectL_cons_self (parse : String → Bool) (df : DataFrame) (c : ColCategory)
    {p : ℕ × String} {t : List (ℕ × String)}
    (hc : classifyCol parse df.rows.length (df.dtypes.getD p.1 .obj) (colVals df p.1) =
      some (some c)) :
    collectL parse df c (p :: t) = p.2 :: collectL parse df c t := by
  unfold collectL
  rw [List.filterMap_cons, if_pos hc]

theorem collectL_cons_other (parse : String → Bool) (df : DataFrame) (c : ColCategory)
    {c0 : ColCategory} {p : ℕ × String} {t : List (ℕ × String)}
    (hc : classifyCol parse df.rows.length (df.dtypes.getD p.1 .obj) (colVals df p.1) =
      some (some c0))
    (hne : c ≠ c0) :
    collectL parse df c (p :: t) = collectL parse df c t := by
  unfold collectL
  rw [List.filterMap_cons, if_neg (by rw [hc]; simp; exact fun h => hne h.symm)]

theorem detStep_foldl (parse : String → Bool) (df : DataFrame) :
    ∀ (l : List (ℕ × String)) (r : ColTypes),
      (∀ p ∈ l, classifyCol parse df.rows.length (df.dtypes.getD p.1 .obj) (colVals df p.1) ≠
        none) →
      l.foldl (detStep parse df) (some r) =
        some ⟨r.numeric ++ collectL parse df .numeric l,
              r.categorical ++ collectL parse df .categorical l,
              r.datetime ++ collectL parse df .datetime l,
              r.text ++ collectL parse df .text l⟩ := by
  intro l
  induction l with
  | nil => intro r _; simp [collectL]
  | cons p t ih =>
    intro r hne
    rw [List.foldl_cons]
    cases hc : classifyCol parse df.rows.length (df.dtypes.getD p.1 .obj) (colVals df p.1) with
    | none => exact absurd hc (hne p (List.mem_cons_self p t))
    | some oc =>
      have htail : ∀ q ∈ t,
          classifyCol parse df.rows.length (df.dtypes.getD q.1 .obj) (colVals df q.1) ≠ none :=
        fun q hq => hne q (List.mem_cons_of_mem p hq)
      cases oc with
      | none =>
        have hstep : detStep parse df (some r) p = some r := by
          unfold detStep
          rw [hc]
        rw [hstep, ih r htail, collectL_cons_none parse df ColCategory.numeric hc,
          collectL_cons_none parse df ColCategory.categorical hc,
          collectL_cons_none parse df ColCategory.datetime hc,
          collectL_cons_none parse df ColCategory.text hc]
      | some c =>
        have hstep : detStep parse df (some r) p = some (addName r c p.2) := by
          unfold detStep
          rw [hc]
        rw [hstep, ih _ htail]
        cases c with
        | numeric =>
          rw [collectL_cons_self parse df ColCategory.numeric hc,
            collectL_cons_other parse df ColCategory.categorical hc (by decide),
            collectL_cons_other parse df ColCategory.datetime hc (by decide),
            collectL_cons_other parse df ColCategory.text hc (by decide)]
          simp [addName, List.append_assoc]
        | categorical =>
          rw [collectL_cons_self parse df ColCategory.categorical hc,
            collectL_cons_other parse df ColCategory.numeric hc (by decide),
            collectL_cons_other parse df ColCategory.datetime hc (by decide),
            collectL_cons_other parse df ColCategory.text hc (by decide)]
          simp [addName, List.append_assoc]
        | datetime =>
          rw [collectL_cons_self parse df ColCategory.datetime hc,
            collectL_cons_other parse df ColCategory.numeric hc (by decide),
            collectL_cons_other parse df ColCategory.categorical hc (by decide),
            collectL_cons_other parse df ColCategory.text hc (by decide)]
          simp [addName, List.append_assoc]
        | text =>
          rw [collectL_cons_self parse df ColCategory.text hc,
            collectL_cons_other parse df ColCategory.numeric hc (by decide),
            collectL_cons_other parse df ColCategory.categorical hc (by decide),
            collectL_cons_other parse df ColCategory.datetime hc (by decide)]
          simp [addName, List.append_assoc]

theorem detect_eq_collect (parse : String → Bool) (df : DataFrame) :
    detect_column_types parse df =
      some ⟨collectCat parse df .numeric, collectCat parse df .categorical,
            collectCat parse df .datetime, collectCat parse df .text⟩ := by
  unfold detect_column_types collectCat
  rw [detStep_foldl parse df df.names.enum ⟨[], [], [], []⟩
    (fun p _ => classifyAt_ne_none parse df p.1)]
  simp

/-- The Classifier never faults: in particular the ratio division of rule 3
is never reached with a zero denominator, because a zero-row object column
vacuously passes the strict datetime parse first. -/
theorem detect_column_types_total (parse : String → Bool) (df : DataFrame) :
    (detect_column_types parse df).isSome := by
  rw [detect_eq_collect]
  rfl

theorem mem_collectCat_of (parse : String → Bool) (df : DataFrame) (j : ℕ)
    (hj : j < df.names.length) (c : ColCategory)
    (hcl : classifyCol parse df.rows.length (df.dtypes.getD j .obj) (colVals df j) =
      some (some c)) :
    df.names.getD j "" ∈ collectCat parse df c := by
  have hget : df.names[j]? = some (df.names.getD j "") := by
    rw [List.getD_eq_getElem?_getD, List.getElem?_eq_getElem hj]
    rfl
  have hpmem : (j, df.names.getD j "") ∈ df.names.enum :=
    List.mem_enum_iff_getElem?.mpr hget
  exact List.mem_filterMap.mpr ⟨(j, df.names.getD j ""), hpmem, by rw [if_pos hcl]⟩

theorem eq_of_mem_collectCat (parse : String → Bool) (df : DataFrame)
    (hnd : df.names.Nodup) (j : ℕ) (hj : j < df.names.length) (c : ColCategory)
    (hmem : df.names.getD j "" ∈ collectCat parse df c) :
    classifyCol parse df.rows.length (df.dtypes.getD j .obj) (colVals df j) =
      some (some c) := by
  obtain ⟨p, hp, hif⟩ := List.mem_filterMap.mp hmem
  by_cases hcl : classifyCol parse df.rows.length (df.dtypes.getD p.1 .obj) (colVals df p.1) =
      some (some c)
  · rw [if_pos hcl] at hif
    have hv : p.2 = df.names.getD j "" := Option.some.inj hif
    have hget : df.names[p.1]? = some p.2 := List.mem_enum_iff_getElem?.mp hp
    have hgetj : df.names[j]? = some (df.names.getD j "") := by
      rw [List.getD_eq_getElem?_getD, List.getElem?_eq_getElem hj]
      rfl
    have hlt : p.1 < df.names.length := by
      by_contra hge
      rw [List.getElem?_eq_none (Nat.le_of_not_lt hge)] at hget
      exact absurd hget (by simp)
    have : p.1 = j := List.getElem?_inj hlt hnd (by rw [hget, hgetj, hv])
    rw [← this]
    exact hcl
  · rw [if_neg hcl] at hif
    exact absurd hif (by simp)

/-- Number of the four category lists containing a given column name. -/
def countIn (r : ColTypes) (n : String) : ℕ :=
  (if n ∈ r.numeric then 1 else 0) + (if n ∈ r.categorical then 1 else 0) +
    (if n ∈ r.datetime then 1 else 0) + (if n ∈ r.text then 1 else 0)

theorem classifyAt_cases (parse : String → Bool) (df : DataFrame) (j : ℕ) :
    (¬(isNumericDtype (df.dtypes.getD j .obj) = true ∨ df.dtypes.getD j .obj = .obj) →
      classifyCol parse df.rows.length (df.dtypes.getD j .obj) (colVals df j) = some none) ∧
    ((isNumericDtype (df.dtypes.getD j .obj) = true ∨ df.dtypes.getD j .obj = .obj) →
      ∃ c, classifyCol parse df.rows.length (df.dtypes.getD j .obj) (colVals df j) =
        some (some c)) := by
  constructor
  · intro h
    push_neg at h
    obtain ⟨hnum, hobj⟩ := h
    unfold classifyCol
    rw [if_neg (fun hh => hobj hh.1), if_neg hnum, if_neg hobj]
  · intro h
    unfold classifyCol
    by_cases hA : df.dtypes.getD j .obj = .obj ∧ (colVals df j).all (cellParsesDt parse) = true
    · rw [if_pos hA]
      exact ⟨.datetime, rfl⟩
    · rw [if_neg hA]
      by_cases hB : isNumericDtype (df.dtypes.getD j .obj) = true
      · rw [if_pos hB]
        exact ⟨.numeric, rfl⟩
      · have hobj : df.dtypes.getD j .obj = .obj := by
          rcases h with h | h
          · exact absurd h hB
          · exact h
        rw [if_neg hB, if_pos hobj]
        by_cases hD : df.rows.length = 0
        · have hcv : colVals df j = [] := by
            rw [colVals, List.length_eq_zero.mp hD]
            rfl
          exact absurd ⟨hobj, by rw [hcv]; rfl⟩ hA
        · rw [if_neg hD]
          by_cases hE : (nuniqueCells (colVals df j) : ℚ) / df.rows.length < 1 / 20 ∨
              nuniqueCells (colVals df j) < 20
          · rw [if_pos hE]
            exact ⟨.categorical, rfl⟩
          · rw [if_neg hE]
            exact ⟨.text, rfl⟩

/-! Claim C3: totality and exclusivity of the Column Type Classifier. -/

/-- A table with one datetime64-typed column. -/
def dfOnlyDt : DataFrame := ⟨["d"], [.datetime64], [[.time 0]]⟩

/-- C3 counterexample: on a table whose only column is datetime64-typed
(such columns arise both from the loader and from the pipeline's own
category narrowing), the Classifier returns empty lists for all four
categories, so the column is assigned no category at all, refuting
exhaustiveness. -/
theorem C3_counterexample :
    detect_column_types noParse dfOnlyDt = some ⟨[], [], [], []⟩ ∧
    countIn ⟨[], [], [], []⟩ "d" = 0 := by decide

/-- C3 amended: the four categories are mutually exclusive, and a column is
assigned exactly one category precisely when its storage type is numeric
(pandas is_numeric_dtype) or object; columns of any other storage type
(datetime64, category, ...) are assigned no category, so exhaustiveness
fails for them. -/
theorem C3_classifier_amended (parse : String → Bool) (df : DataFrame) (r : ColTypes)
    (hnd : df.names.Nodup) (j : ℕ) (hj : j < df.names.length)
    (hr : detect_column_types parse df = some r) :
    countIn r (df.names.getD j "") =
      if isNumericDtype (df.dtypes.getD j .obj) = true ∨ df.dtypes.getD j .obj = .obj
      then 1 else 0 := by
  rw [detect_eq_collect] at hr
  have hrv : r = ⟨collectCat parse df .numeric, collectCat parse df .categorical,
      collectCat parse df .datetime, collectCat parse df .text⟩ := (Option.some.inj hr).symm
  subst hrv
  have hmem : ∀ c : ColCategory,
      df.names.getD j "" ∈ collectCat parse df c ↔
        classifyCol parse df.rows.length (df.dtypes.getD j .obj) (colVals df j) =
          some (some c) :=
    fun c => ⟨eq_of_mem_collectCat parse df hnd j hj c, mem_collectCat_of parse df j hj c⟩
  by_cases hcase : isNumericDtype (df.dtypes.getD j .obj) = true ∨
      df.dtypes.getD j .obj = .obj
  · rw [if_pos hcase]
    obtain ⟨c, hc⟩ := (classifyAt_cases parse df j).2 hcase
    cases c <;>
      simp only [countIn, hmem ColCategory.numeric, hmem ColCategory.categorical,
        hmem ColCategory.datetime, hmem ColCategory.text, hc] <;>
      decide
  · rw [if_neg hcase]
    have hc := (classifyAt_cases parse df j).1 hcase
    simp only [countIn, hmem ColCategory.numeric, hmem ColCategory.categorical,
      hmem ColCategory.datetime, hmem ColCategory.text, hc]
    decide

/-- Mixed-dtype table exercising the amended C3 statement. -/
def dfW3 : DataFrame :=
  ⟨["n", "s", "d"], [.int64, .obj, .datetime64], [[.num 1, .str "a", .time 0]]⟩

theorem C3_classifier_amended_witness :
    dfW3.names.Nodup ∧ (2 : ℕ) < dfW3.names.length ∧
    detect_column_types noParse dfW3 = some ⟨["n"], ["s"], [], []⟩ ∧
    countIn ⟨["n"], ["s"], [], []⟩ (dfW3.names.getD 2 "") =
      (if isNumericDtype (dfW3.dtypes.getD 2 .obj) = true ∨ dfW3.dtypes.getD 2 .obj = .obj
        then 1 else 0) :=
  ⟨by decide, by decide, by decide,
    C3_classifier_amended noParse dfW3 ⟨["n"], ["s"], [], []⟩ (by decide) 2 (by decide)
      (by decide)⟩

/-! Claim C5: the zero-row table in the Classifier. -/

theorem classifyCol_of_empty (parse : String → Bool) (dt : Dtype) :
    classifyCol parse 0 dt [] =
      if dt = .obj then some (some .datetime)
      else if isNumericDtype dt then some (some .numeric) else some none := by
  unfold classifyCol
  by_cases hdt : dt = .obj
  · rw [if_pos ⟨hdt, rfl⟩, if_pos hdt]
  · rw [if_neg (fun h => hdt h.1), if_neg hdt]
    by_cases hnum : isNumericDtype dt = true
    · rw [if_pos hnum, if_neg hdt]
    · rw [if_neg hnum, if_neg hdt]

/-- A zero-row table with one object column. -/
def dfEmptyObj : DataFrame := ⟨["c"], [.obj], []⟩

/-- C5 counterexample: on a zero-row table the object column has
distinct-count 0 < 20, so the claim says it must be classified categorical;
the code instead classifies it datetime, because the strict datetime parse
of an empty column vacuously succeeds before rule 3 is ever reached. -/
theorem C5_counterexample :
    detect_column_types noParse dfEmptyObj = some ⟨[], [], ["c"], []⟩ ∧
    nuniqueCells (colVals dfEmptyObj 0) < 20 ∧
    "c" ∉ ColTypes.categorical ⟨[], [], ["c"], []⟩ ∧
    "c" ∉ ColTypes.text ⟨[], [], ["c"], []⟩ := by decide

/-- C5 amended: on a zero-row table the Classifier does not fault, but not
because the ratio division is guarded: every object column vacuously passes
the strict datetime parse and is classified datetime, so the division of
rule 3 is never reached and no column is classified categorical or text. -/
theorem C5_empty_table_amended (parse : String → Bool) (df : DataFrame) (r : ColTypes)
    (hrows : df.rows = []) (hr : detect_column_types parse df = some r) :
    r.categorical = [] ∧ r.text = [] ∧
    ∀ j, j < df.names.length → df.dtypes.getD j .obj = .obj →
      df.names.getD j "" ∈ r.datetime := by
  have hlen : df.rows.length = 0 := by rw [hrows]; rfl
  have hcv : ∀ j, colVals df j = [] := by
    intro j
    rw [colVals, hrows]
    rfl
  have hclass : ∀ j, classifyCol parse df.rows.length (df.dtypes.getD j .obj) (colVals df j) =
      if df.dtypes.getD j .obj = .obj then some (some .datetime)
      else if isNumericDtype (df.dtypes.getD j .obj) then some (some .numeric)
      else some none := by
    intro j
    rw [hcv j, hlen]
    exact classifyCol_of_empty parse (df.dtypes.getD j .obj)
  rw [detect_eq_collect] at hr
  have hrv : r = ⟨collectCat parse df .numeric, collectCat parse df .categorical,
      collectCat parse df .datetime, collectCat parse df .text⟩ := (Option.some.inj hr).symm
  subst hrv
  refine ⟨?_, ?_, ?_⟩
  · apply List.filterMap_eq_nil_iff.mpr
    intro p _
    rw [hclass p.1]
    split_ifs <;> simp_all
  · apply List.filterMap_eq_nil_iff.mpr
    intro p _
    rw [hclass p.1]
    split_ifs <;> simp_all
  · intro j hj hobj
    apply mem_collectCat_of parse df j hj
    rw [hclass j, if_pos hobj]

theorem C5_empty_table_amended_witness :
    dfEmptyObj.rows = [] ∧
    detect_column_types noParse dfEmptyObj = some ⟨[], [], ["c"], []⟩ ∧
    ((⟨[], [], ["c"], []⟩ : ColTypes).categorical = [] ∧
      (⟨[], [], ["c"], []⟩ : ColTypes).text = [] ∧
      ∀ j, j < dfEmptyObj.names.length → dfEmptyObj.dtypes.getD j .obj = .obj →
        dfEmptyObj.names.getD j "" ∈ (⟨[], [], ["c"], []⟩ : ColTypes).datetime) :=
  ⟨by decide, by decide,
    C5_empty_table_amended noParse dfEmptyObj ⟨[], [], ["c"], []⟩ (by decide) (by decide)⟩

/-! Claim C6: integer type narrowing. -/

/-- Dtype of one column of the optimized table. -/
def optimizedDtypeAt (df : DataFrame) (j : ℕ) : Option Dtype :=
  (optimize_dtypes df).map (fun p => p.1.dtypes.getD j .obj)

/-- Observed minimum of a value list, 0 on an empty list. -/
def minD (xs : List ℚ) : ℚ := (minQ? xs).getD 0

/-- Observed maximum of a value list, 0 on an empty list. -/
def maxD (xs : List ℚ) : ℚ := (maxQ? xs).getD 0

/-- Ordering of the candidate integer widths; non-candidates rank 0. -/
def widthRank : Dtype → ℕ
  | .int8 => 1
  | .int16 => 2
  | .int32 => 3
  | .int64 => 4
  | _ => 0

/-- The strict signed-range test the source applies per width: the observed
minimum must be strictly above the width's smallest value and the observed
maximum strictly below its largest; int64 always accepts (the column keeps
its storage), other dtypes never fit. -/
def strictFitD : Dtype → ℚ → ℚ → Prop
  | .int8, a, b => -128 < a ∧ b < 127
  | .int16, a, b => -32768 < a ∧ b < 32767
  | .int32, a, b => -2147483648 < a ∧ b < 2147483647
  | .int64, _, _ => True
  | _, _, _ => False

theorem narrowInt64_least (a b : ℚ) :
    strictFitD (narrowInt64 a b) a b ∧
    ∀ d, widthRank d < widthRank (narrowInt64 a b) → ¬ strictFitD d a b := by
  unfold narrowInt64
  split_ifs with h1 h2 h3
  · refine ⟨h1, ?_⟩
    intro d hd
    cases d <;> first | exact absurd hd (by decide) | simp [strictFitD]
  · refine ⟨h2, ?_⟩
    intro d hd
    cases d <;> first | exact absurd hd (by decide) | exact h1 | simp [strictFitD]
  · refine ⟨h3, ?_⟩
    intro d hd
    cases d <;> first | exact absurd hd (by decide) | exact h1 | exact h2 | simp [strictFitD]
  · refine ⟨trivial, ?_⟩
    intro d hd
    cases d <;>
      first | exact absurd hd (by decide) | exact h1 | exact h2 | exact h3 | simp [strictFitD]

theorem minQ?_eq {xs : List ℚ} (h : xs ≠ []) : minQ? xs = some (minD xs) := by
  cases xs with
  | nil => exact absurd rfl h
  | cons x t => rfl

theorem maxQ?_eq {xs : List ℚ} (h : xs ≠ []) : maxQ? xs = some (maxD xs) := by
  cases xs with
  | nil => exact absurd rfl h
  | cons x t => rfl

theorem optColsAux_getD (df : DataFrame) :
    ∀ (l : List ℕ) (ds : List Dtype), optColsAux df l = some ds →
      ∀ i, i < l.length →
        optimizeCol df.rows.length (df.dtypes.getD (l.getD i 0) .obj)
            (colVals df (l.getD i 0)) =
          some (ds.getD i .obj) := by
  intro l
  induction l with
  | nil =>
    intro ds _ i hi
    simp at hi
  | cons j t ih =>
    intro ds hds i hi
    unfold optColsAux at hds
    cases hopt : optimizeCol df.rows.length (df.dtypes.getD j .obj) (colVals df j) with
    | none => rw [hopt] at hds; exact absurd hds (by simp)
    | some d =>
      rw [hopt] at hds
      cases haux : optColsAux df t with
      | none => rw [haux] at hds; exact absurd hds (by simp)
      | some rest =>
        rw [haux] at hds
        have hdv : d :: rest = ds := Option.some.inj hds
        subst hdv
        cases i with
        | zero => simpa using hopt
        | succ n =>
          simp only [List.getD_cons_succ]
          exact ih rest haux n (by simpa using hi)

theorem optimize_dtypes_dtypeAt {df : DataFrame} {p : DataFrame × OptReport}
    (h : optimize_dtypes df = some p) (j : ℕ) (hj : j < df.names.length) :
    optimizeCol df.rows.length (df.dtypes.getD j .obj) (colVals df j) =
      some (p.1.dtypes.getD j .obj) := by
  unfold optimize_dtypes at h
  cases haux : optColsAux df (List.range df.names.length) with
  | none => rw [haux] at h; exact absurd h (by simp)
  | some dts =>
    rw [haux] at h
    have hpv : _ = p := Option.some.inj h
    subst hpv
    have hget := optColsAux_getD df (List.range df.names.length) dts haux j
      (by simpa using hj)
    have hrg : (List.range df.names.length).getD j 0 = j := by
      rw [List.getD_eq_getElem?_getD, List.getElem?_range hj]
      rfl
    rw [hrg] at hget
    exact hget

/-- An int64 column whose maximum sits exactly on the int8 boundary 127. -/
def dfBoundary : DataFrame := ⟨["a"], [.int64], [[.num 0], [.num 127]]⟩

/-- C6 counterexample: the observed range 0..127 is bounded by the signed
int8 range, boundary included, so the claim requires an int8 cast; the
source's strict comparison c_max < iinfo(int8).max rejects 127 and the
column is narrowed to int16 instead. -/
theorem C6_counterexample :
    optimizedDtypeAt dfBoundary 0 = some Dtype.int16 ∧
    minD (nums (colVals dfBoundary 0)) = 0 ∧
    maxD (nums (colVals dfBoundary 0)) = 127 ∧
    (-128 : ℚ) ≤ 0 ∧ (127 : ℚ) ≤ 127 ∧
    Dtype.int16 ≠ Dtype.int8 := by decide

/-- C6 amended: a nonempty int64 column is cast to the smallest width among
8/16/32 bits whose signed range bounds the observed minimum and maximum
with STRICT inequalities (values exactly at a width's boundary disqualify
that width); when no width strictly fits, the column keeps int64. -/
theorem C6_narrowing_amended (df : DataFrame) (j : ℕ)
    (hs : (optimize_dtypes df).isSome) (hj : j < df.names.length)
    (hdt : df.dtypes.getD j .obj = .int64) (hne : nums (colVals df j) ≠ []) :
    optimizedDtypeAt df j =
      some (narrowInt64 (minD (nums (colVals df j))) (maxD (nums (colVals df j)))) ∧
    strictFitD (narrowInt64 (minD (nums (colVals df j))) (maxD (nums (colVals df j))))
      (minD (nums (colVals df j))) (maxD (nums (colVals df j))) ∧
    ∀ d, widthRank d <
        widthRank (narrowInt64 (minD (nums (colVals df j))) (maxD (nums (colVals df j)))) →
      ¬ strictFitD d (minD (nums (colVals df j))) (maxD (nums (colVals df j))) := by
  obtain ⟨p, hp⟩ := Option.isSome_iff_exists.mp hs
  have hat := optimize_dtypes_dtypeAt hp j hj
  have hcol : optimizeCol df.rows.length (df.dtypes.getD j .obj) (colVals df j) =
      some (narrowInt64 (minD (nums (colVals df j))) (maxD (nums (colVals df j)))) := by
    unfold optimizeCol
    rw [if_pos hdt, minQ?_eq hne, maxQ?_eq hne]
  refine ⟨?_, (narrowInt64_least _ _).1, (narrowInt64_least _ _).2⟩
  rw [hcol] at hat
  rw [optimizedDtypeAt, hp, Option.map_some']
  exact hat.symm

/-- An int64 column with a single value 300, fitting int16 but not int8. -/
def dfW6 : DataFrame := ⟨["a"], [.int64], [[.num 300]]⟩

theorem C6_narrowing_amended_witness :
    (optimize_dtypes dfW6).isSome ∧ (0 : ℕ) < dfW6.names.length ∧
    dfW6.dtypes.getD 0 .obj = .int64 ∧ nums (colVals dfW6 0) ≠ [] ∧
    (optimizedDtypeAt dfW6 0 =
        some (narrowInt64 (minD (nums (colVals dfW6 0))) (maxD (nums (colVals dfW6 0)))) ∧
      strictFitD (narrowInt64 (minD (nums (colVals dfW6 0))) (maxD (nums (colVals dfW6 0))))
        (minD (nums (colVals dfW6 0))) (maxD (nums (colVals dfW6 0))) ∧
      ∀ d, widthRank d <
          widthRank (narrowInt64 (minD (nums (colVals dfW6 0))) (maxD (nums (colVals dfW6 0)))) →
        ¬ strictFitD d (minD (nums (colVals dfW6 0))) (maxD (nums (colVals dfW6 0)))) :=
  ⟨by decide, by decide, by decide, by decide,
    C6_narrowing_amended dfW6 0 (by decide) (by decide) (by decide) (by decide)⟩

/-! Claim C4: distribution analysis on an absent or non-numeric column. -/

/-- A numeric column with only two values: the degenerate-data case. -/
def dfTwo : DataFrame := ⟨["x"], [.float64], [[.num 1], [.num 2]]⟩

/-- A non-numeric (object) column with three values. -/
def dfStr : DataFrame := ⟨["s"], [.obj], [[.str "a"], [.str "b"], [.str "c"]]⟩

/-- C4 counterexample: requesting distribution analysis on an absent column
and on a non-numeric column returns the same empty result as the
degenerate-data case of a numeric column with too few samples; no error of
any kind is signaled, so caller misuse is silently absorbed. -/
theorem C4_counterexample :
    distribution_analysis statsStub dfTwo "zzz" = none ∧
    distribution_analysis statsStub dfStr "s" = none ∧
    distribution_analysis statsStub dfTwo "x" = none := by decide

/-- C4 amended: a call on a column that is absent from the table or not of
numeric storage returns the empty result, indistinguishable from the
degenerate-data cases; it is not signaled as an error. -/
theorem C4_contract_amended (P : PStats) (df : DataFrame) (col : String)
    (h : (df.names.findIdx? (fun n => n == col)).all
      (fun j => !isNumericDtype (df.dtypes.getD j .obj)) = true) :
    distribution_analysis P df col = none := by
  unfold distribution_analysis
  split
  · rfl
  next j hf =>
    rw [hf] at h
    have hnn : isNumericDtype (df.dtypes.getD j .obj) = false := by
      simpa using h
    rw [if_pos hnn]

theorem C4_contract_amended_witness :
    (dfStr.names.findIdx? (fun n => n == "s")).all
      (fun j => !isNumericDtype (dfStr.dtypes.getD j .obj)) = true ∧
    distribution_analysis statsStub dfStr "s" = none :=
  ⟨by decide, C4_contract_amended statsStub dfStr "s" (by decide)⟩

/-! Claim C7: the coefficient of variation at mean zero. -/

theorem le_foldr_max {l : List ℕ} {a : ℕ} (h : a ∈ l) : a ≤ l.foldr max 0 := by
  induction l with
  | nil => exact absurd h (List.not_mem_nil a)
  | cons x t ih =>
    rw [List.foldr_cons]
    rcases List.mem_cons.mp h with h1 | h1
    · rw [h1]
      exact Nat.le_max_left _ _
    · exact le_trans (ih h1) (Nat.le_max_right _ _)

theorem natSqrtLin_pos {n : ℕ} (h : 1 ≤ n) : 1 ≤ natSqrtLin n := by
  unfold natSqrtLin
  apply le_foldr_max
  apply List.mem_filter.mpr
  constructor
  · exact List.mem_range.mpr (by omega)
  · simpa using h

theorem ratSqrt_nonneg (q : ℚ) : 0 ≤ ratSqrt q := by
  unfold ratSqrt
  rw [Rat.mkRat_eq_div]
  exact div_nonneg (by positivity) (by positivity)

theorem divE_fin_zero_pos {a : ℚ} (ha : 0 < a) :
    ExtFloat.div (.fin a) (.fin 0) = .posInf := by
  simp only [ExtFloat.div]
  rw [if_neg (by simp), if_pos ha]

theorem divE_fin_zero_zero : ExtFloat.div (.fin 0) (.fin 0) = .nan := by
  simp only [ExtFloat.div]
  rw [if_neg (by simp), if_neg (by simp), if_neg (by simp)]

theorem divE_fin_fin {a b : ℚ} (hb : b ≠ 0) :
    ExtFloat.div (.fin a) (.fin b) = .fin (a / b) := by
  simp only [ExtFloat.div]
  rw [if_pos hb]

theorem mulE_posInf_pos : ExtFloat.mul .posInf (.fin 100) = .posInf := by
  simp only [ExtFloat.mul]
  rw [if_pos (by norm_num)]

/-- Column exercising the C7 counterexample: values -1, 0, 1 have mean 0
and standard deviation 1. -/
def dfCv : DataFrame := ⟨["v"], [.float64], [[.num (-1)], [.num 0], [.num 1]]⟩

/-- C7 counterexample: on a column with values -1, 0, 1 the mean is zero
and the standard deviation is 1, so std / mean * 100 evaluates to positive
infinity, not to NaN / an "undefined" marker as the claim states; the
computation still does not crash. -/
theorem C7_counterexample :
    descriptive_cv dfCv = [("v", ExtFloat.posInf)] ∧
    meanE (nums (colVals dfCv 0)) = ExtFloat.fin 0 ∧
    ExtFloat.posInf ≠ ExtFloat.nan := by decide

/-- C7 amended: the coefficient of variation equals std / mean * 100
rounded to two decimals whenever the mean is a nonzero finite value and the
std is finite; when the mean is zero the computation never crashes but
yields a non-finite float: positive infinity when the std is positive, NaN
when the std is zero or undefined. -/
theorem C7_cv_amended (xs : List ℚ) :
    (meanE xs = .fin 0 → cvE xs = .posInf ∨ cvE xs = .nan) ∧
    (∀ m s, meanE xs = .fin m → m ≠ 0 → stdE xs = .fin s →
      cvE xs = .fin (round2 (s / m * 100))) := by
  constructor
  · intro hm
    unfold cvE
    rw [hm]
    by_cases hl : xs.length < 2
    · rw [stdE, if_pos hl]
      exact Or.inr rfl
    · rw [stdE, if_neg hl]
      rcases lt_or_eq_of_le (ratSqrt_nonneg (sampleVar xs)) with hpos | hzero
      · rw [divE_fin_zero_pos hpos, mulE_posInf_pos]
        exact Or.inl rfl
      · rw [← hzero, divE_fin_zero_zero]
        exact Or.inr rfl
  · intro m s hm hm0 hstd
    unfold cvE
    rw [hm, hstd, divE_fin_fin hm0]
    rfl

theorem C7_cv_amended_witness :
    (meanE [-1, 0, 1] = ExtFloat.fin 0 ∧
      (cvE [-1, 0, 1] = ExtFloat.posInf ∨ cvE [-1, 0, 1] = ExtFloat.nan)) ∧
    (meanE [1, 2, 3] = ExtFloat.fin 2 ∧ (2 : ℚ) ≠ 0 ∧ stdE [1, 2, 3] = ExtFloat.fin 1 ∧
      cvE [1, 2, 3] = ExtFloat.fin (round2 (1 / 2 * 100))) :=
  ⟨⟨by decide, (C7_cv_amended [-1, 0, 1]).1 (by decide)⟩,
    ⟨by decide, by decide, by decide,
      (C7_cv_amended [1, 2, 3]).2 2 1 (by decide) (by decide) (by decide)⟩⟩

/-! Claim C8: strict IQR outlier fences. -/

theorem sorted_getD_mono {s : List ℚ} (hs : s.Sorted (fun a b => a ≤ b)) {i j : ℕ}
    (hij : i ≤ j) (hj : j < s.length) : s.getD i 0 ≤ s.getD j 0 := by
  rcases Nat.eq_or_lt_of_le hij with rfl | hlt
  · exact le_refl _
  · have hi : i < s.length := lt_trans hlt hj
    rw [List.getD_eq_getElem?_getD, List.getD_eq_getElem?_getD,
      List.getElem?_eq_getElem hi, List.getElem?_eq_getElem hj]
    exact (List.pairwise_iff_getElem.mp hs) i j hi hj hlt

theorem getD_of_ge {s : List ℚ} {i : ℕ} (hi : s.length ≤ i) (d : ℚ) : s.getD i d = d := by
  rw [List.getD_eq_getElem?_getD, List.getElem?_eq_none hi]
  rfl

theorem getD_of_lt {s : List ℚ} {i : ℕ} (hi : i < s.length) (d : ℚ) :
    s.getD i d = s.getD i 0 := by
  rw [List.getD_eq_getElem?_getD, List.getD_eq_getElem?_getD, List.getElem?_eq_getElem hi]
  rfl

theorem interpAt_mono {s : List ℚ} (hs : s.Sorted (fun a b => a ≤ b)) {a b : ℚ}
    (ha : 0 ≤ a) (hab : a ≤ b) (hb : b ≤ (s.length : ℚ) - 1) :
    interpAt s a ≤ interpAt s b := by
  have hia : (0 : ℤ) ≤ ⌊a⌋ := Int.floor_nonneg.mpr ha
  have hfab : ⌊a⌋ ≤ ⌊b⌋ := Int.floor_le_floor hab
  have hibz : ⌊b⌋ ≤ (s.length : ℤ) - 1 := by
    have h1 : ⌊b⌋ ≤ ⌊((s.length : ℚ) - 1)⌋ := Int.floor_le_floor hb
    have h2 : ((s.length : ℚ) - 1) = (((s.length : ℤ) - 1 : ℤ) : ℚ) := by push_cast; ring
    rw [h2, Int.floor_intCast] at h1
    exact h1
  have hkz : ((⌊b⌋).toNat : ℤ) = ⌊b⌋ := Int.toNat_of_nonneg (le_trans hia hfab)
  have hiz : ((⌊a⌋).toNat : ℤ) = ⌊a⌋ := Int.toNat_of_nonneg hia
  have hik : (⌊a⌋).toNat ≤ (⌊b⌋).toNat := by omega
  have hkn : (⌊b⌋).toNat < s.length := by omega
  have hfa0 : 0 ≤ a - ((⌊a⌋ : ℤ) : ℚ) := sub_nonneg.mpr (Int.floor_le a)
  have hfa1 : a - ((⌊a⌋ : ℤ) : ℚ) < 1 := by
    have := Int.lt_floor_add_one a
    linarith
  have hfb0 : 0 ≤ b - ((⌊b⌋ : ℤ) : ℚ) := sub_nonneg.mpr (Int.floor_le b)
  have hfb1 : b - ((⌊b⌋ : ℤ) : ℚ) < 1 := by
    have := Int.lt_floor_add_one b
    linarith
  unfold interpAt
  rcases Nat.lt_or_ge (⌊a⌋).toNat (⌊b⌋).toNat with hlt | hge
  · -- strictly earlier interval: value at a is at most its upper knot,
    -- which sits at or below the lower knot of the interval of b
    have hin : (⌊a⌋).toNat + 1 < s.length := by omega
    have hhiA : s.getD ((⌊a⌋).toNat + 1) (s.getD (⌊a⌋).toNat 0) =
        s.getD ((⌊a⌋).toNat + 1) 0 := getD_of_lt hin _
    have hloA_le : s.getD (⌊a⌋).toNat 0 ≤ s.getD ((⌊a⌋).toNat + 1) 0 :=
      sorted_getD_mono hs (by omega) hin
    have hknot : s.getD ((⌊a⌋).toNat + 1) 0 ≤ s.getD (⌊b⌋).toNat 0 :=
      sorted_getD_mono hs (by omega) hkn
    have hhiB_ge : s.getD (⌊b⌋).toNat 0 ≤
        s.getD ((⌊b⌋).toNat + 1) (s.getD (⌊b⌋).toNat 0) := by
      rcases Nat.lt_or_ge ((⌊b⌋).toNat + 1) s.length with hbn | hbn
      · rw [getD_of_lt hbn]
        exact sorted_getD_mono hs (by omega) hbn
      · rw [getD_of_ge hbn]
    rw [hhiA]
    nlinarith [hloA_le, hknot, hhiB_ge, hfa0, hfa1, hfb0, hfb1]
  · -- same interval: floors are equal, compare the fractional parts
    have heq : (⌊a⌋).toNat = (⌊b⌋).toNat := le_antisymm hik hge
    have heqz : ⌊a⌋ = ⌊b⌋ := by omega
    rw [heq, heqz]
    have hfle : a - ((⌊b⌋ : ℤ) : ℚ) ≤ b - ((⌊b⌋ : ℤ) : ℚ) := by linarith
    have hknots : s.getD (⌊b⌋).toNat 0 ≤
        s.getD ((⌊b⌋).toNat + 1) (s.getD (⌊b⌋).toNat 0) := by
      rcases Nat.lt_or_ge ((⌊b⌋).toNat + 1) s.length with hbn | hbn
      · rw [getD_of_lt hbn]
        exact sorted_getD_mono hs (by omega) hbn
      · rw [getD_of_ge hbn]
    have hfa0b : 0 ≤ a - ((⌊b⌋ : ℤ) : ℚ) := by rw [← heqz]; exact hfa0
    nlinarith [hknots, hfle, hfa0b]

theorem quantileQ_mono (xs : List ℚ) {p q : ℚ} (hp : 0 ≤ p) (hpq : p ≤ q) (hq : q ≤ 1) :
    quantileQ xs p ≤ quantileQ xs q := by
  unfold quantileQ
  by_cases h0 : (sortQ xs).length = 0
  · rw [if_pos h0, if_pos h0]
  · rw [if_neg h0, if_neg h0]
    have hn1 : 1 ≤ (sortQ xs).length := Nat.one_le_iff_ne_zero.mpr h0
    have hnn : (0 : ℚ) ≤ ((sortQ xs).length : ℚ) - 1 := by
      have : (1 : ℚ) ≤ ((sortQ xs).length : ℚ) := by exact_mod_cast hn1
      linarith
    apply interpAt_mono (sortQ_sorted xs)
    · exact mul_nonneg hp hnn
    · exact mul_le_mul_of_nonneg_right hpq hnn
    · calc q * (((sortQ xs).length : ℚ) - 1)
          ≤ 1 * (((sortQ xs).length : ℚ) - 1) := mul_le_mul_of_nonneg_right hq hnn
        _ = ((sortQ xs).length : ℚ) - 1 := one_mul _

/-- C8: in distribution analysis the quartiles are the interpolated 25th
and 75th percentiles, the IQR their difference, and a value is counted as
an outlier exactly when it lies strictly below Q1 - 1.5 IQR or strictly
above Q3 + 1.5 IQR; a value exactly equal to either fence is never
counted. -/
theorem C8_outlier_strict (P : PStats) (df : DataFrame) (col : String) (j : ℕ)
    (s : DistSummary) (hj : df.names.findIdx? (fun n => n == col) = some j)
    (h : distribution_analysis P df col = some s) :
    s.q1 = quantileQ (nums (colVals df j)) (1 / 4) ∧
    s.q3 = quantileQ (nums (colVals df j)) (3 / 4) ∧
    s.iqr = s.q3 - s.q1 ∧
    s.outliers_count = ((nums (colVals df j)).filter
      (fun v => decide (v < s.q1 - 3 / 2 * s.iqr ∨ v > s.q3 + 3 / 2 * s.iqr))).length ∧
    ∀ v ∈ nums (colVals df j), (v = s.q1 - 3 / 2 * s.iqr ∨ v = s.q3 + 3 / 2 * s.iqr) →
      v ∉ (nums (colVals df j)).filter
        (fun v => decide (v < s.q1 - 3 / 2 * s.iqr ∨ v > s.q3 + 3 / 2 * s.iqr)) := by
  unfold distribution_analysis at h
  split at h
  · exact absurd h (by simp)
  rename_i j2 hf
  rw [hj] at hf
  have hjj : j = j2 := Option.some.inj hf
  subst hjj
  by_cases hn : isNumericDtype (df.dtypes.getD j .obj) = false
  · rw [if_pos hn] at h
    exact absurd h (by simp)
  · rw [if_neg hn] at h
    by_cases hlen : (nums (colVals df j)).length < 3
    · rw [if_pos hlen] at h
      exact absurd h (by simp)
    · rw [if_neg hlen] at h
      have hsv := (Option.some.inj h).symm
      subst hsv
      refine ⟨rfl, rfl, rfl, rfl, ?_⟩
      intro v hv heq hmem
      have hq13 : quantileQ (nums (colVals df j)) (1 / 4) ≤
          quantileQ (nums (colVals df j)) (3 / 4) :=
        quantileQ_mono _ (by norm_num) (by norm_num) (by norm_num)
      have hflag := of_decide_eq_true (List.mem_filter.mp hmem).2
      set q1v := quantileQ (nums (colVals df j)) (1 / 4)
      set q3v := quantileQ (nums (colVals df j)) (3 / 4)
      rcases heq with heq | heq <;> rcases hflag with hflag | hflag <;>
        [skip; skip; skip; skip] <;>
        simp only [heq] at hflag <;> linarith

/-- A constant numeric column: every value sits exactly on both fences. -/
def dfW8 : DataFrame := ⟨["x"], [.float64], [[.num 0], [.num 0], [.num 0], [.num 0]]⟩

theorem C8_outlier_strict_witness :
    dfW8.names.findIdx? (fun n => n == "x") = some 0 ∧
    distribution_analysis statsStub dfW8 "x" = some ⟨0, 0, false, 0, 0, 0, 0, 0⟩ ∧
    ((⟨0, 0, false, 0, 0, 0, 0, 0⟩ : DistSummary).q1 =
        quantileQ (nums (colVals dfW8 0)) (1 / 4) ∧
      (⟨0, 0, false, 0, 0, 0, 0, 0⟩ : DistSummary).q3 =
        quantileQ (nums (colVals dfW8 0)) (3 / 4) ∧
      (⟨0, 0, false, 0, 0, 0, 0, 0⟩ : DistSummary).iqr =
        (⟨0, 0, false, 0, 0, 0, 0, 0⟩ : DistSummary).q3 -
          (⟨0, 0, false, 0, 0, 0, 0, 0⟩ : DistSummary).q1 ∧
      (⟨0, 0, false, 0, 0, 0, 0, 0⟩ : DistSummary).outliers_count =
        ((nums (colVals dfW8 0)).filter
          (fun v => decide (v < (⟨0, 0, false, 0, 0, 0, 0, 0⟩ : DistSummary).q1 -
              3 / 2 * (⟨0, 0, false, 0, 0, 0, 0, 0⟩ : DistSummary).iqr ∨
            v > (⟨0, 0, false, 0, 0, 0, 0, 0⟩ : DistSummary).q3 +
              3 / 2 * (⟨0, 0, false, 0, 0, 0, 0, 0⟩ : DistSummary).iqr))).length ∧
      ∀ v ∈ nums (colVals dfW8 0),
        (v = (⟨0, 0, false, 0, 0, 0, 0, 0⟩ : DistSummary).q1 -
            3 / 2 * (⟨0, 0, false, 0, 0, 0, 0, 0⟩ : DistSummary).iqr ∨
          v = (⟨0, 0, false, 0, 0, 0, 0, 0⟩ : DistSummary).q3 +
            3 / 2 * (⟨0, 0, false, 0, 0, 0, 0, 0⟩ : DistSummary).iqr) →
        v ∉ (nums (colVals dfW8 0)).filter
          (fun v => decide (v < (⟨0, 0, false, 0, 0, 0, 0, 0⟩ : DistSummary).q1 -
              3 / 2 * (⟨0, 0, false, 0, 0, 0, 0, 0⟩ : DistSummary).iqr ∨
            v > (⟨0, 0, false, 0, 0, 0, 0, 0⟩ : DistSummary).q3 +
              3 / 2 * (⟨0, 0, false, 0, 0, 0, 0, 0⟩ : DistSummary).iqr))) :=
  ⟨by decide, by decide,
    C8_outlier_strict statsStub dfW8 "x" 0 ⟨0, 0, false, 0, 0, 0, 0, 0⟩ (by decide)
      (by decide)⟩

/-! Claim C9: the fixed generation order of the insight list. -/

theorem foldl_append_eq {α β : Type} (g : α → List β) :
    ∀ (l : List α) (acc : List β),
      l.foldl (fun accu x => accu ++ g x) acc = acc ++ l.flatMap g := by
  intro l
  induction l with
  | nil => intro acc; simp
  | cons x t ih =>
    intro acc
    rw [List.foldl_cons, ih, List.flatMap_cons, List.append_assoc]

/-- Per-column numeric insights, in the outlier, skew, normality order of
the source's three independent checks. -/
def numColInsights (P : PStats) (df : DataFrame) (col : String) : List Insight :=
  match distribution_analysis P df col with
  | none => []
  | some d =>
    (if d.outliers_percentage > 5 then [Insight.outlier col d.outliers_percentage] else []) ++
    (if |d.skewness| > 1 then [Insight.skewed col (decide (d.skewness > 0)) d.skewness] else []) ++
    (if d.is_normal then [Insight.normalDist col] else [])

/-- Per-column dominant-category insight of the third loop. -/
def catColInsights (df : DataFrame) (col : String) : List Insight :=
  match categorical_analysis df col with
  | none => []
  | some c =>
    if c.most_common_pct > 50 then
      [Insight.dominant col (c.most_common.getD (.str "")) c.most_common_pct]
    else []

theorem foldl_step_eq {α β : Type} (step : List β → α → List β) (g : α → List β)
    (hstep : ∀ acc x, step acc x = acc ++ g x) :
    ∀ (l : List α) (acc : List β), l.foldl step acc = acc ++ l.flatMap g := by
  intro l
  induction l with
  | nil => intro acc; simp
  | cons x t ih =>
    intro acc
    rw [List.foldl_cons, hstep, ih, List.flatMap_cons, List.append_assoc]

theorem flatMap_singleton_eq_map {α β : Type} (f : α → β) (l : List α) :
    l.flatMap (fun x => [f x]) = l.map f := by
  induction l with
  | nil => rfl
  | cons x t ih => rw [List.flatMap_cons, List.map_cons, ih]; rfl

theorem numeric_step_eq (P : PStats) (df : DataFrame) (acc : List Insight) (col : String) :
    (match distribution_analysis P df col with
      | none => acc
      | some d =>
        let acc1 := if d.outliers_percentage > 5 then
            acc ++ [Insight.outlier col d.outliers_percentage]
          else acc
        let acc2 := if |d.skewness| > 1 then
            acc1 ++ [Insight.skewed col (decide (d.skewness > 0)) d.skewness]
          else acc1
        if d.is_normal then acc2 ++ [Insight.normalDist col] else acc2) =
      acc ++ numColInsights P df col := by
  unfold numColInsights
  cases distribution_analysis P df col with
  | none => simp
  | some d =>
    dsimp only
    split_ifs <;> simp [List.append_assoc]

theorem cat_step_eq (df : DataFrame) (acc : List Insight) (col : String) :
    (match categorical_analysis df col with
      | none => acc
      | some c =>
        if c.most_common_pct > 50 then
          acc ++ [Insight.dominant col (c.most_common.getD (.str "")) c.most_common_pct]
        else acc) = acc ++ catColInsights df col := by
  unfold catColInsights
  cases categorical_analysis df col with
  | none => simp
  | some c =>
    dsimp only
    split_ifs <;> simp

theorem enumFrom_filterMap_sublist (l : List String) (f : ℕ × String → Option String)
    (hf : ∀ p b, f p = some b → b = p.2) :
    ∀ k, List.Sublist ((List.enumFrom k l).filterMap f) l := by
  induction l with
  | nil => intro k; simp
  | cons a t ih =>
    intro k
    rw [List.enumFrom_cons, List.filterMap_cons]
    cases hfa : f (k, a) with
    | none => exact (ih (k + 1)).cons a
    | some b =>
      dsimp only
      rw [hf (k, a) b hfa]
      exact (ih (k + 1)).cons₂ a

theorem collectCat_sublist (parse : String → Bool) (df : DataFrame) (c : ColCategory) :
    List.Sublist (collectCat parse df c) df.names := by
  exact enumFrom_filterMap_sublist df.names _
    (by
      intro p b hb
      split at hb
      · exact (Option.some.inj hb).symm
      · exact absurd hb (by simp))
    0

/-- Modelled from the spec's wording of the insight order: for each of the
first five numeric columns the three independent insights in outlier,
skew-direction, normality order; then one note per strong-correlation pair
for the first three pairs in discovery order; then a dominant-category note
for each of the first three categorical columns whose leading share
exceeds one half. -/
def insightsSpecOrder (P : PStats) (df : DataFrame) (ct : ColTypes) : List Insight :=
  ((ct.numeric.take 5).flatMap (numColInsights P df)) ++
    (((strong_correlations P df).take 3).map (fun t => Insight.corrNote t.1 t.2.1 t.2.2)) ++
    ((ct.categorical.take 3).flatMap (catColInsights df))

/-- C9: generate_insights emits exactly the spec's fixed order - for each
of the first five numeric columns an outlier insight iff the outlier
percentage exceeds 5, a skew insight iff |skewness| > 1 with positive skew
reported as rightward, and a normality insight iff the verdict holds, in
that order; then one insight per strong-correlation pair for the first
three pairs in discovery order; then a dominant-category insight for each
of the first three categorical columns whose leading share exceeds one
half - and the classifier's numeric and categorical lists are sublists of
the table's column order. -/
theorem C9_insight_order (parse : String → Bool) (P : PStats) (df : DataFrame)
    (ct : ColTypes) (hct : detect_column_types parse df = some ct) :
    generate_insights P df ct = insightsSpecOrder P df ct ∧
    List.Sublist ct.numeric df.names ∧ List.Sublist ct.categorical df.names := by
  refine ⟨?_, ?_, ?_⟩
  · unfold generate_insights insightsSpecOrder
    dsimp only
    rw [foldl_step_eq _ (numColInsights P df) (numeric_step_eq P df) (ct.numeric.take 5) [],
      foldl_step_eq _ (fun t => [Insight.corrNote t.1 t.2.1 t.2.2]) (fun _ _ => rfl)
        ((strong_correlations P df).take 3),
      foldl_step_eq _ (catColInsights df) (cat_step_eq df) (ct.categorical.take 3),
      flatMap_singleton_eq_map]
    simp [List.append_assoc]
  · rw [detect_eq_collect] at hct
    have hv : ct = ⟨collectCat parse df .numeric, collectCat parse df .categorical,
        collectCat parse df .datetime, collectCat parse df .text⟩ := (Option.some.inj hct).symm
    rw [hv]
    exact collectCat_sublist parse df .numeric
  · rw [detect_eq_collect] at hct
    have hv : ct = ⟨collectCat parse df .numeric, collectCat parse df .categorical,
        collectCat parse df .datetime, collectCat parse df .text⟩ := (Option.some.inj hct).symm
    rw [hv]
    exact collectCat_sublist parse df .categorical

/-- Two-column table with one numeric and one dominant categorical column. -/
def dfW9 : DataFrame :=
  ⟨["x", "c"], [.float64, .obj],
    [[.num 1, .str "a"], [.num 2, .str "a"], [.num 3, .str "a"]]⟩

theorem C9_insight_order_witness :
    detect_column_types noParse dfW9 = some ⟨["x"], ["c"], [], []⟩ ∧
    (generate_insights statsStub dfW9 ⟨["x"], ["c"], [], []⟩ =
        insightsSpecOrder statsStub dfW9 ⟨["x"], ["c"], [], []⟩ ∧
      List.Sublist (ColTypes.numeric ⟨["x"], ["c"], [], []⟩) dfW9.names ∧
      List.Sublist (ColTypes.categorical ⟨["x"], ["c"], [], []⟩) dfW9.names) :=
  ⟨by decide, C9_insight_order noParse statsStub dfW9 ⟨["x"], ["c"], [], []⟩ (by decide)⟩

end SalesAnalytics
